import Mathlib

/-!
# Tile store of `AGridManager` (GridManager.h / GridManager.cpp)

A shallow embedding of the data model and of the operations of the grid
manager: the tile store (`IsValidTile`, `IsGridInfoInitialized`,
`GenerateTileInfo`, `GetTileInfoAtPositionCopy`, `SetTileInfoAtPosition`,
`GetTileInfoAtIndexCopy`, `SetTileInfoAtIndex`,
`InitializeStartingTilesModifiers`), the queries (`IsValidWalkTile`,
`IsValidSpawnTile`, `GetNeighboringTiles`, `GetTileInReferenceToTile`), the
coordinate transform (`LocationToTile`, `LocationToGridLocation`,
`TileToGridLocation` and its walk and spawn variants) and `TakeTileSpace`.

Conventions of the embedding.

* C++ `int` values are mathematical integers (`Int`).  Signed overflow is
  undefined behaviour in C++, so the embedding describes the executions in
  which no intermediate product leaves the `int` range.
* `float` quantities (`TileSize`, world locations) are exact rationals and
  `FFloor` is the integer floor.  Division is the field division of `ℚ`; the
  results that depend on a quotient assume a positive tile size and positive
  dimensions, where no division by zero occurs.  The results on locations are
  therefore results in exact arithmetic: the rounding of the 32-bit `float`
  product `Row * TileSize` and of the sums of the source is not modelled, and
  nothing here bounds it.
* A member of a local left uninitialised by the source is an explicit argument
  of the function that declares the local.
* `TArray<FTileInfo>` is a `List FTileInfo`; `TArray::Num()` is its length.
  `TArray::operator[]` performs a range check that aborts the program when the
  index is outside `[0, Num())`; an aborted run is the result `none`.
* `AActor*` is an optional opaque handle, `none` being the null pointer.
* A non-`const` member function returns the new state next to its result; a
  `const` member function is a function of the state alone.
-/

/-- Opaque handle of an engine actor (`AActor`). -/
abbrev AActor := Nat

/-- Engine type `FIntPoint`: a pair of `int`s. -/
structure FIntPoint where
  X : Int
  Y : Int
deriving DecidableEq, Repr

/-- Engine type `FVector`, with exact rational components. -/
structure FVector where
  X : ℚ
  Y : ℚ
  Z : ℚ
deriving DecidableEq

/-- Engine operator `FVector::operator+`: componentwise sum. -/
instance : Add FVector where
  add a b := ⟨a.X + b.X, a.Y + b.Y, a.Z + b.Z⟩

/-- Struct `FTileMod` (GridManager.h:13): a seed of a startup modifier list. -/
structure FTileMod where
  Row : Int
  Column : Int
deriving DecidableEq, Repr

/-- Struct `FTileInfo` (GridManager.h:33): the state of one tile. -/
structure FTileInfo where
  Position : FIntPoint
  bCanSpawnOn : Bool
  bCanWalkOn : Bool
  ActorOnTile : Option AActor
deriving DecidableEq, Repr

namespace FTileInfo

/-- Constructor `FTileInfo()` (GridManager.h:49): sentinel position, both flags
true, null actor. -/
def default : FTileInfo :=
  { Position := ⟨-1, -1⟩, bCanSpawnOn := true, bCanWalkOn := true, ActorOnTile := none }

/-- Constructor `FTileInfo(int Row, int Column)` (GridManager.h:53): both flags
true, the given position, null actor.  The call `FTileInfo(-1, -1)` selects
this overload. -/
def ofRowColumn (Row Column : Int) : FTileInfo :=
  { Position := ⟨Row, Column⟩, bCanSpawnOn := true, bCanWalkOn := true, ActorOnTile := none }

/-- The three member assignments shared by `SetTileInfoAtPosition` and
`SetTileInfoAtIndex`: `bCanWalkOn`, `bCanSpawnOn` and `ActorOnTile` are taken
from `TileInfoIn`, `Position` is kept. -/
def Assign (Tile TileInfoIn : FTileInfo) : FTileInfo :=
  { Tile with
    bCanWalkOn := TileInfoIn.bCanWalkOn
    bCanSpawnOn := TileInfoIn.bCanSpawnOn
    ActorOnTile := TileInfoIn.ActorOnTile }

end FTileInfo

/-- Range-checked element read `Array[Index]` of a `TArray`: `none` when the
range check `0 <= Index < Num()` fails. -/
def TArrayRead {α : Type} (Array : List α) (Index : Int) : Option α :=
  if 0 ≤ Index ∧ Index < (Array.length : Int) then Array[Index.toNat]? else none

/-- The data members of `AGridManager` (GridManager.h:91-139) that the tile
store and the coordinate transform use; `ActorLocation` stands for
`GetActorLocation()`. -/
structure AGridManager where
  NumRows : Int
  NumColumns : Int
  TileSize : ℚ
  ActorLocation : FVector
  NoSpawningStartingTiles : List FTileMod
  NoWalkingStartingTiles : List FTileMod
  TilesInfo : List FTileInfo
  bStartingModifiersInitialized : Bool
deriving DecidableEq

namespace AGridManager

/-- `AGridManager::IsValidTile` (GridManager.cpp:268). -/
def IsValidTile (g : AGridManager) (Row Column : Int) : Bool :=
  decide (Row ≥ 0) && decide (Row < g.NumRows) && decide (Column ≥ 0) &&
    decide (Column < g.NumColumns)

/-- `AGridManager::IsGridInfoInitialized` (GridManager.cpp:467). -/
def IsGridInfoInitialized (g : AGridManager) : Bool :=
  decide ((g.TilesInfo.length : Int) = g.NumColumns * g.NumRows)

/-- The inner loop of `GenerateTileInfo` for row `i`:
`for (j = 0; j < NumColumns; ++j) TilesInfo.Add(FTileInfo(i, j))`. -/
def GenerateTileInfoRow (NumColumns : Int) (Tiles : List FTileInfo) (i : Nat) :
    List FTileInfo :=
  (List.range NumColumns.toNat).foldl
    (fun (acc : List FTileInfo) (j : Nat) => acc ++ [FTileInfo.ofRowColumn (i : Int) (j : Int)])
    Tiles

/-- The two nested loops of `GenerateTileInfo`, started on the emptied array. -/
def GenerateTileInfoLoop (NumRows NumColumns : Int) : List FTileInfo :=
  (List.range NumRows.toNat).foldl (GenerateTileInfoRow NumColumns) []

/-- `AGridManager::GenerateTileInfo` (GridManager.cpp:475). -/
def GenerateTileInfo (g : AGridManager) : AGridManager :=
  if g.IsGridInfoInitialized then g
  else
    { g with
      bStartingModifiersInitialized := false
      TilesInfo := GenerateTileInfoLoop g.NumRows g.NumColumns }

/-- `AGridManager::GetTileInfoAtPositionCopy` (GridManager.cpp:545): the
returned tile together with the out-parameter `bValid`. -/
def GetTileInfoAtPositionCopy (g : AGridManager) (Row Column : Int) :
    Option (FTileInfo × Bool) :=
  if !g.IsGridInfoInitialized then some (FTileInfo.ofRowColumn (-1) (-1), false)
  else if !g.IsValidTile Row Column then some (FTileInfo.ofRowColumn (-1) (-1), false)
  else
    let Index := Row * g.NumColumns + Column
    match TArrayRead g.TilesInfo Index with
    | none => none
    | some Tile => some (Tile, true)

/-- `AGridManager::SetTileInfoAtPosition` (GridManager.cpp:579): the returned
flag together with the new state.  The three assignments go through
`TilesInfo[Index]` with `Index = Row * NumRows + Column`. -/
def SetTileInfoAtPosition (g : AGridManager) (Row Column : Int) (TileInfoIn : FTileInfo) :
    Option (Bool × AGridManager) :=
  if !g.IsGridInfoInitialized then some (false, g)
  else if !g.IsValidTile Row Column then some (false, g)
  else
    let Index := Row * g.NumRows + Column
    match TArrayRead g.TilesInfo Index with
    | none => none
    | some Tile =>
      some (true, { g with TilesInfo := g.TilesInfo.set Index.toNat (Tile.Assign TileInfoIn) })

/-- A range-based loop `for (TileMod : Mods) SetTileInfoAtPosition(TileMod.Row,
TileMod.Column, TileInfo)` of `InitializeStartingTilesModifiers`; the flag
returned by the setter is dropped, as in the source. -/
def SetTileInfoForEach (TileInfo : FTileInfo) : List FTileMod → AGridManager → Option AGridManager
  | [], g => some g
  | TileMod :: Rest, g =>
    match g.SetTileInfoAtPosition TileMod.Row TileMod.Column TileInfo with
    | none => none
    | some (_, g') => SetTileInfoForEach TileInfo Rest g'

/-- `AGridManager::InitializeStartingTilesModifiers` (GridManager.cpp:158). -/
def InitializeStartingTilesModifiers (g : AGridManager) : Option AGridManager :=
  if g.bStartingModifiersInitialized then some g
  else
    match SetTileInfoForEach { FTileInfo.default with bCanSpawnOn := false }
        g.NoSpawningStartingTiles g with
    | none => none
    | some g1 =>
      match SetTileInfoForEach { FTileInfo.default with bCanWalkOn := false }
          g1.NoWalkingStartingTiles g1 with
      | none => none
      | some g2 => some { g2 with bStartingModifiersInitialized := true }

/-- `AGridManager::IsValidWalkTile` (GridManager.cpp:277); `&&` evaluates the
lookup only for an in-range position. -/
def IsValidWalkTile (g : AGridManager) (Row Column : Int) : Option Bool :=
  if g.IsValidTile Row Column then
    (g.GetTileInfoAtPositionCopy Row Column).map (fun r => r.1.bCanWalkOn)
  else some false

/-- `AGridManager::IsValidSpawnTile` (GridManager.cpp:287). -/
def IsValidSpawnTile (g : AGridManager) (Row Column : Int) : Option Bool :=
  if g.IsValidTile Row Column then
    (g.GetTileInfoAtPositionCopy Row Column).map (fun r => r.1.bCanSpawnOn)
  else some false

/-- `AGridManager::SetTileInfoAtIndex` (GridManager.cpp:519): the returned flag
together with the new state. -/
def SetTileInfoAtIndex (g : AGridManager) (Index : Int) (TileInfoIn : FTileInfo) :
    Option (Bool × AGridManager) :=
  if !g.IsGridInfoInitialized then some (false, g)
  else if decide (Index < 0) || decide (Index > (g.TilesInfo.length : Int) - 1) then some (false, g)
  else
    match TArrayRead g.TilesInfo Index with
    | none => none
    | some Tile =>
      some (true, { g with TilesInfo := g.TilesInfo.set Index.toNat (Tile.Assign TileInfoIn) })

/-- `AGridManager::GetGridWidth` (GridManager.h:219). -/
def GetGridWidth (g : AGridManager) : ℚ :=
  (g.NumColumns : ℚ) * g.TileSize

/-- `AGridManager::GetGridHeight` (GridManager.h:222). -/
def GetGridHeight (g : AGridManager) : ℚ :=
  (g.NumRows : ℚ) * g.TileSize

/-- `AGridManager::LocationToTile` (GridManager.cpp:300): the out-parameters
`RowOut`, `ColumnOut` and `bValid`; `FFloor` is the integer floor. -/
def LocationToTile (g : AGridManager) (Location : FVector) : Int × Int × Bool :=
  let RowOut : Int := ⌊(Location.X - g.ActorLocation.X) / g.GetGridWidth * (g.NumColumns : ℚ)⌋
  let ColumnOut : Int := ⌊(Location.Y - g.ActorLocation.Y) / g.GetGridHeight * (g.NumRows : ℚ)⌋
  (RowOut, ColumnOut, g.IsValidTile RowOut ColumnOut)

/-- The location computed alike by `TileToGridLocation`, `TileToWalkGridLocation`
and `TileToSpawnGridLocation` (GridManager.cpp:397-401, 418-422, 439-443).  The
local `FVector GridLocation;` is default-constructed, which initialises nothing,
and only its `X` and `Y` are assigned before `Offset` is added: the value its
`Z` member happens to hold is the argument `UninitializedZ`. -/
def GridLocationOf (g : AGridManager) (Row Column : Int) (bCenter : Bool) (Offset : FVector)
    (UninitializedZ : ℚ) : FVector :=
  let GridLocation : FVector :=
    { X := if bCenter then (Row : ℚ) * g.TileSize + g.ActorLocation.X + g.TileSize / 2
        else (Row : ℚ) * g.TileSize + g.ActorLocation.X
      Y := if bCenter then (Column : ℚ) * g.TileSize + g.ActorLocation.Y + g.TileSize / 2
        else (Column : ℚ) * g.TileSize + g.ActorLocation.Y
      Z := UninitializedZ }
  GridLocation + Offset

/-- `AGridManager::TileToGridLocation` (GridManager.cpp:392): the returned
location together with the out-parameter `bValid`. -/
def TileToGridLocation (g : AGridManager) (Row Column : Int) (bCenter : Bool) (Offset : FVector)
    (UninitializedZ : ℚ) : FVector × Bool :=
  (g.GridLocationOf Row Column bCenter Offset UninitializedZ, g.IsValidTile Row Column)

/-- `AGridManager::TileToWalkGridLocation` (GridManager.cpp:413). -/
def TileToWalkGridLocation (g : AGridManager) (Row Column : Int) (bCenter : Bool)
    (Offset : FVector) (UninitializedZ : ℚ) : Option (FVector × Bool) :=
  (g.IsValidWalkTile Row Column).map
    (fun bValid => (g.GridLocationOf Row Column bCenter Offset UninitializedZ, bValid))

/-- `AGridManager::TileToSpawnGridLocation` (GridManager.cpp:434). -/
def TileToSpawnGridLocation (g : AGridManager) (Row Column : Int) (bCenter : Bool)
    (Offset : FVector) (UninitializedZ : ℚ) : Option (FVector × Bool) :=
  (g.IsValidSpawnTile Row Column).map
    (fun bValid => (g.GridLocationOf Row Column bCenter Offset UninitializedZ, bValid))

/-- `AGridManager::GetTileInfoAtPositionWithLocation` (GridManager.cpp:566): the
returned tile, the out-parameter `TileLocation` (centre of the tile, zero
offset) and the out-parameter `bValid` as the lookup leaves it. -/
def GetTileInfoAtPositionWithLocation (g : AGridManager) (Row Column : Int)
    (UninitializedZ : ℚ) : Option (FTileInfo × FVector × Bool) :=
  let TileLocation := (g.TileToGridLocation Row Column true ⟨0, 0, 0⟩ UninitializedZ).1
  match g.GetTileInfoAtPositionCopy Row Column with
  | none => none
  | some (Tile, bValid) => some (Tile, TileLocation, bValid)

/-- `AGridManager::GetTileInReferenceToTile` (GridManager.cpp:236): the returned
flag and the reference parameters `OutLocation` and `TileInfo` after the call
(they keep the values passed in on an early return).  `RotateVector` stands
for the engine call `Quat_RotateVector(Rotation.Quaternion(), ·)`. -/
def GetTileInReferenceToTile (g : AGridManager) (InRow InColumn RowOffset ColOffset : Int)
    (OutLocation : FVector) (TileInfo : FTileInfo) (bConsiderRotation : Bool)
    (RotateVector : FVector → FVector) (UninitializedZ1 UninitializedZ2 : ℚ) :
    Option (Bool × FVector × FTileInfo) :=
  let Base := g.TileToGridLocation InRow InColumn true ⟨0, 0, 0⟩ UninitializedZ1
  if !Base.2 then some (false, OutLocation, TileInfo)
  else
    let Offset0 : FVector := ⟨g.TileSize * (RowOffset : ℚ), g.TileSize * (ColOffset : ℚ), 0⟩
    let Offset : FVector := if bConsiderRotation then RotateVector Offset0 else Offset0
    let Target := g.LocationToTile (Offset + Base.1)
    if !Target.2.2 then some (false, OutLocation, TileInfo)
    else
      match g.GetTileInfoAtPositionWithLocation Target.1 Target.2.1 UninitializedZ2 with
      | none => none
      | some (Tile, TileLocation, bValid) => some (bValid, TileLocation, Tile)

/-- `AGridManager::TakeTileSpace` (GridManager.cpp:308): the returned flag
together with the new state.  `Actor` is the (non-null) actor and
`ActorLocation` its `GetActorLocation()`. -/
def TakeTileSpace (g : AGridManager) (Actor : AActor) (ActorLocation : FVector)
    (bAffectWalkable : Bool) : Option (Bool × AGridManager) :=
  let Target := g.LocationToTile ActorLocation
  if !Target.2.2 then some (false, g)
  else
    match g.GetTileInfoAtPositionCopy Target.1 Target.2.1 with
    | none => none
    | some (TileInfo, _) =>
      if decide (TileInfo.Position.X < 0) || decide (TileInfo.Position.Y < 0) then some (false, g)
      else
        g.SetTileInfoAtPosition Target.1 Target.2.1
          { TileInfo with
            bCanSpawnOn := false
            bCanWalkOn := if bAffectWalkable then false else TileInfo.bCanWalkOn
            ActorOnTile := some Actor }

/-- The values an `int` loop variable takes in `for (v = Low; v <= High; v++)`. -/
def IntLoopRange (Low High : Int) : List Int :=
  (List.range (High - Low + 1).toNat).map (fun (k : Nat) => Low + (k : Int))

/-- The inner loop of `GetNeighboringTiles` for row `i`, over the column values
`Columns`: the tile looked up at `(i, j)` decides, by its `bCanWalkOn` alone,
whether `FTileInfo(i, j)` is added; the out-parameter `bValid` is not read. -/
def GetNeighboringTilesRow (g : AGridManager) (i : Int) :
    List Int → List FTileInfo → Option (List FTileInfo)
  | [], Neighbors => some Neighbors
  | j :: Columns, Neighbors =>
    match g.GetTileInfoAtPositionCopy i j with
    | none => none
    | some (WalkableTile, _) =>
      GetNeighboringTilesRow g i Columns
        (if WalkableTile.bCanWalkOn then Neighbors ++ [FTileInfo.ofRowColumn i j] else Neighbors)

/-- The outer loop of `GetNeighboringTiles`, over the row values `Rows`. -/
def GetNeighboringTilesRows (g : AGridManager) (Columns : List Int) :
    List Int → List FTileInfo → Option (List FTileInfo)
  | [], Neighbors => some Neighbors
  | i :: Rows, Neighbors =>
    match GetNeighboringTilesRow g i Columns Neighbors with
    | none => none
    | some Neighbors' => GetNeighboringTilesRows g Columns Rows Neighbors'

/-- `AGridManager::GetNeighboringTiles` (GridManager.cpp:606). -/
def GetNeighboringTiles (g : AGridManager) (Row Column NeighboringRows NeighboringColumns : Int) :
    Option (List FTileInfo) :=
  GetNeighboringTilesRows g
    (IntLoopRange (Column - NeighboringColumns) (Column + NeighboringColumns))
    (IntLoopRange (Row - NeighboringRows) (Row + NeighboringRows)) []

/-- `AGridManager::GetTileInfoAtIndexCopy` (GridManager.cpp:496). -/
def GetTileInfoAtIndexCopy (g : AGridManager) (Index : Int) : Option FTileInfo :=
  if !g.IsGridInfoInitialized then some (FTileInfo.ofRowColumn (-1) (-1))
  else if decide (Index < 0) || decide (Index > (g.TilesInfo.length : Int) - 1) then
    some (FTileInfo.ofRowColumn (-1) (-1))
  else TArrayRead g.TilesInfo Index

/-- `AGridManager::LocationToGridLocation` (GridManager.cpp:332): the returned
location together with the out-parameter `bValid`, which the call of
`TileToGridLocation` (default `bCenter = true`, zero offset) overwrites. -/
def LocationToGridLocation (g : AGridManager) (Location : FVector) (UninitializedZ : ℚ) :
    FVector × Bool :=
  let Target := g.LocationToTile Location
  g.TileToGridLocation Target.1 Target.2.1 true ⟨0, 0, 0⟩ UninitializedZ

/-- The local `Index` of `GetTileInfoAtPositionCopy` (GridManager.cpp:561). -/
def GetTileInfoAtPositionCopyIndex (g : AGridManager) (Row Column : Int) : Int :=
  Row * g.NumColumns + Column

/-- The local `Index` of `SetTileInfoAtPosition` (GridManager.cpp:593). -/
def SetTileInfoAtPositionIndex (g : AGridManager) (Row Column : Int) : Int :=
  Row * g.NumRows + Column

/-- The `bCanWalkOn` member of the tile that `GetTileInfoAtPositionCopy(i, j)`
returns, the test made by the body of the loops of `GetNeighboringTiles`. -/
def LookupCanWalkOn (g : AGridManager) (i j : Int) : Bool :=
  match g.GetTileInfoAtPositionCopy i j with
  | some (WalkableTile, _) => WalkableTile.bCanWalkOn
  | none => false

/-- The data-model invariant on cached positions: for every in-range `(r, c)`
the entry at flat index `r * NumColumns + c` exists and its `Position` is
`(r, c)`. -/
def PositionInvariant (g : AGridManager) : Prop :=
  ∀ r c : Int, 0 ≤ r → r < g.NumRows → 0 ≤ c → c < g.NumColumns →
    ∃ Tile, g.TilesInfo[(r * g.NumColumns + c).toNat]? = some Tile ∧ Tile.Position = ⟨r, c⟩

/-- One returning call, from state `g` to state `g'`, of a tile-store operation
other than `GenerateTileInfo`: `InitializeStartingTilesModifiers`,
`SetTileInfoAtPosition`, `SetTileInfoAtIndex` or `TakeTileSpace`, with any
arguments. -/
inductive Mutation : AGridManager → AGridManager → Prop
  | modifiers {g g' : AGridManager} :
      g.InitializeStartingTilesModifiers = some g' → Mutation g g'
  | setAtPosition {g g' : AGridManager} (Row Column : Int) (TileInfoIn : FTileInfo)
      (bResult : Bool) :
      g.SetTileInfoAtPosition Row Column TileInfoIn = some (bResult, g') → Mutation g g'
  | setAtIndex {g g' : AGridManager} (Index : Int) (TileInfoIn : FTileInfo) (bResult : Bool) :
      g.SetTileInfoAtIndex Index TileInfoIn = some (bResult, g') → Mutation g g'
  | takeTileSpace {g g' : AGridManager} (Actor : AActor) (ActorLocation : FVector)
      (bAffectWalkable bResult : Bool) :
      g.TakeTileSpace Actor ActorLocation bAffectWalkable = some (bResult, g') → Mutation g g'

/-- The states reachable from `g0` by any sequence of `GenerateTileInfo` calls
and of mutations. -/
inductive Reachable (g0 : AGridManager) : AGridManager → Prop
  | start : Reachable g0 g0
  | generate {g : AGridManager} : Reachable g0 g → Reachable g0 g.GenerateTileInfo
  | mutate {g g' : AGridManager} : Reachable g0 g → Mutation g g' → Reachable g0 g'

/-- The grid manager as the constructor `AGridManager()` leaves it, for a
configuration edited to `NumRows` by `NumColumns` with the given seed lists:
empty tile array, modifiers not yet initialised, tile size 100. -/
def Constructed (NumRows NumColumns : Int) (NoSpawn NoWalk : List FTileMod) : AGridManager :=
  { NumRows := NumRows
    NumColumns := NumColumns
    TileSize := 100
    ActorLocation := ⟨0, 0, 0⟩
    NoSpawningStartingTiles := NoSpawn
    NoWalkingStartingTiles := NoWalk
    TilesInfo := []
    bStartingModifiersInitialized := false }

/-- A 2x2 store after play: tile (1, 1) is taken by actor 7 and no longer
walkable or spawnable, and the startup modifiers have been applied. -/
def ClaimedStore2x2 : AGridManager :=
  { Constructed 2 2 [] [] with
    TilesInfo :=
      [⟨⟨0, 0⟩, true, true, none⟩, ⟨⟨0, 1⟩, true, true, none⟩,
       ⟨⟨1, 0⟩, true, true, none⟩, ⟨⟨1, 1⟩, false, false, some 7⟩]
    bStartingModifiersInitialized := true }

/-- A constructed 3x3 grid with no-spawn seeds (1, 1) and (5, 0), the second
outside the grid, and no-walk seed (0, 2). -/
def SeededGrid3x3 : AGridManager :=
  Constructed 3 3 [⟨1, 1⟩, ⟨5, 0⟩] [⟨0, 2⟩]

/-- The default 10x10 grid right after `BeginPlay` generated its tile store,
with empty seed lists. -/
def FreshGrid10x10 : AGridManager :=
  (Constructed 10 10 [] []).GenerateTileInfo

/-- A 2x3 grid (two rows, three columns) right after its tile store was
generated. -/
def FreshGrid2x3 : AGridManager :=
  (Constructed 2 3 [] []).GenerateTileInfo

/-- The 10x10 grid after tile (5, 5) was claimed by actor 7 without affecting
walkability: the tile is walkable, not spawnable and occupied. -/
def Claimed55Grid10x10 : AGridManager :=
  { FreshGrid10x10 with
    TilesInfo := (FreshGrid10x10.TilesInfo.set 55 ⟨⟨5, 5⟩, false, true, some 7⟩) }

/-- The fresh 10x10 grid with its actor placed at height 50: origin (0, 0, 50). -/
def RaisedGrid10x10 : AGridManager :=
  { FreshGrid10x10 with ActorLocation := ⟨0, 0, 50⟩ }

end AGridManager

/-! ## Elementary facts about the range-checked array access -/

theorem TArrayRead_eq_some {α : Type} (Array : List α) (Index : Int)
    (h0 : 0 ≤ Index) (h1 : Index < (Array.length : Int)) :
    ∃ x, Array[Index.toNat]? = some x ∧ TArrayRead Array Index = some x := by
  have hlt : Index.toNat < Array.length := by omega
  refine ⟨Array[Index.toNat], List.getElem?_eq_getElem hlt, ?_⟩
  simp [TArrayRead, h0, h1, List.getElem?_eq_getElem hlt]

theorem TArrayRead_eq_none {α : Type} (Array : List α) (Index : Int)
    (h : Index < 0 ∨ (Array.length : Int) ≤ Index) : TArrayRead Array Index = none := by
  unfold TArrayRead
  rw [if_neg]
  omega

namespace AGridManager

theorem IsValidTile_iff (g : AGridManager) (Row Column : Int) :
    g.IsValidTile Row Column = true ↔
      0 ≤ Row ∧ Row < g.NumRows ∧ 0 ≤ Column ∧ Column < g.NumColumns := by
  simp [IsValidTile, and_assoc]

theorem IsGridInfoInitialized_iff (g : AGridManager) :
    g.IsGridInfoInitialized = true ↔ (g.TilesInfo.length : Int) = g.NumRows * g.NumColumns := by
  simp [IsGridInfoInitialized, mul_comm]

/-- The row-major flat index of an in-range position lies inside an array of
`NumRows * NumColumns` elements. -/
theorem flatIndex_bounds {NumRows NumColumns Row Column : Int}
    (hr0 : 0 ≤ Row) (hr1 : Row < NumRows) (hc0 : 0 ≤ Column) (hc1 : Column < NumColumns) :
    0 ≤ Row * NumColumns + Column ∧ Row * NumColumns + Column < NumRows * NumColumns := by
  have hn : 0 ≤ NumColumns := by omega
  have h1 : 0 ≤ Row * NumColumns := mul_nonneg hr0 hn
  have h2 : (Row + 1) * NumColumns ≤ NumRows * NumColumns :=
    mul_le_mul_of_nonneg_right (by omega) hn
  constructor
  · omega
  · nlinarith

/-- Distinct in-range positions have distinct row-major flat indices. -/
theorem flatIndex_inj {NumColumns Row Column Row' Column' : Int}
    (hc0 : 0 ≤ Column) (hc1 : Column < NumColumns)
    (hc0' : 0 ≤ Column') (hc1' : Column' < NumColumns)
    (h : Row * NumColumns + Column = Row' * NumColumns + Column') :
    Row = Row' ∧ Column = Column' := by
  have hrow : Row = Row' := by
    by_contra hne
    rcases lt_or_gt_of_ne hne with hlt | hgt
    · have : (Row + 1) * NumColumns ≤ Row' * NumColumns :=
        mul_le_mul_of_nonneg_right (by omega) (by omega)
      nlinarith
    · have : (Row' + 1) * NumColumns ≤ Row * NumColumns :=
        mul_le_mul_of_nonneg_right (by omega) (by omega)
      nlinarith
  subst hrow
  exact ⟨rfl, by omega⟩

/-- On an initialised store the lookup of an in-range position never trips
the range check and returns the stored entry. -/
theorem GetTileInfoAtPositionCopy_inRange (g : AGridManager) (Row Column : Int)
    (hinit : (g.TilesInfo.length : Int) = g.NumRows * g.NumColumns)
    (hr0 : 0 ≤ Row) (hr1 : Row < g.NumRows) (hc0 : 0 ≤ Column) (hc1 : Column < g.NumColumns) :
    ∃ Tile, g.TilesInfo[(Row * g.NumColumns + Column).toNat]? = some Tile ∧
      g.GetTileInfoAtPositionCopy Row Column = some (Tile, true) := by
  obtain ⟨hb0, hb1⟩ := flatIndex_bounds hr0 hr1 hc0 hc1
  obtain ⟨Tile, hTile, hread⟩ :=
    TArrayRead_eq_some g.TilesInfo (Row * g.NumColumns + Column) hb0 (by omega)
  refine ⟨Tile, hTile, ?_⟩
  have hI : g.IsGridInfoInitialized = true := (IsGridInfoInitialized_iff g).2 hinit
  have hV : g.IsValidTile Row Column = true := (IsValidTile_iff g Row Column).2 ⟨hr0, hr1, hc0, hc1⟩
  simp [GetTileInfoAtPositionCopy, hI, hV, hread]

/-- The lookup fails with the sentinel tile when the store is not initialised
or the position is out of range. -/
theorem GetTileInfoAtPositionCopy_invalid (g : AGridManager) (Row Column : Int)
    (h : (g.TilesInfo.length : Int) ≠ g.NumRows * g.NumColumns ∨
      ¬ (0 ≤ Row ∧ Row < g.NumRows ∧ 0 ≤ Column ∧ Column < g.NumColumns)) :
    g.GetTileInfoAtPositionCopy Row Column = some (FTileInfo.ofRowColumn (-1) (-1), false) := by
  by_cases hI : g.IsGridInfoInitialized = true
  · have hV : g.IsValidTile Row Column = false := by
      rcases h with h | h
      · exact absurd ((IsGridInfoInitialized_iff g).1 hI) h
      · rw [← Bool.not_eq_true, IsValidTile_iff]; exact h
    simp [GetTileInfoAtPositionCopy, hI, hV]
  · simp [GetTileInfoAtPositionCopy, hI]

/-- The setter refuses, leaving the state as it is, when the store is not
initialised or the position is out of range. -/
theorem SetTileInfoAtPosition_invalid (g : AGridManager) (Row Column : Int) (TileInfoIn : FTileInfo)
    (h : (g.TilesInfo.length : Int) ≠ g.NumRows * g.NumColumns ∨
      ¬ (0 ≤ Row ∧ Row < g.NumRows ∧ 0 ≤ Column ∧ Column < g.NumColumns)) :
    g.SetTileInfoAtPosition Row Column TileInfoIn = some (false, g) := by
  by_cases hI : g.IsGridInfoInitialized = true
  · have hV : g.IsValidTile Row Column = false := by
      rcases h with h | h
      · exact absurd ((IsGridInfoInitialized_iff g).1 hI) h
      · rw [← Bool.not_eq_true, IsValidTile_iff]; exact h
    simp [SetTileInfoAtPosition, hI, hV]
  · simp [SetTileInfoAtPosition, hI]

end AGridManager

namespace AGridManager

theorem foldl_append_singleton {α β : Type} (f : β → α) (l : List β) (init : List α) :
    l.foldl (fun acc j => acc ++ [f j]) init = init ++ l.map f := by
  induction l generalizing init with
  | nil => simp
  | cons b l ih => simp [ih]

theorem GenerateTileInfoRow_eq (NumColumns : Int) (Tiles : List FTileInfo) (i : Nat) :
    GenerateTileInfoRow NumColumns Tiles i =
      Tiles ++ (List.range NumColumns.toNat).map
        (fun (j : Nat) => FTileInfo.ofRowColumn (i : Int) (j : Int)) := by
  unfold GenerateTileInfoRow
  exact foldl_append_singleton _ _ _

/-- After `k` rounds of the outer loop the array holds `k` full rows. -/
theorem GenerateTileInfo_outer (NumColumns : Int) (k : Nat) :
    ((List.range k).foldl (GenerateTileInfoRow NumColumns) []).length = k * NumColumns.toNat ∧
    ∀ i j : Nat, i < k → j < NumColumns.toNat →
      ((List.range k).foldl (GenerateTileInfoRow NumColumns) [])[i * NumColumns.toNat + j]? =
        some (FTileInfo.ofRowColumn (i : Int) (j : Int)) := by
  induction k with
  | zero => simp
  | succ k ih =>
    obtain ⟨hlen, hget⟩ := ih
    rw [List.range_succ, List.foldl_append]
    simp only [List.foldl_cons, List.foldl_nil, GenerateTileInfoRow_eq]
    constructor
    · simp only [List.length_append, List.length_map, List.length_range, hlen, Nat.succ_mul]
    · intro i j hi hj
      by_cases hik : i < k
      · have hlt : i * NumColumns.toNat + j <
            ((List.range k).foldl (GenerateTileInfoRow NumColumns) []).length := by
          rw [hlen]
          calc i * NumColumns.toNat + j < i * NumColumns.toNat + NumColumns.toNat := by omega
            _ = (i + 1) * NumColumns.toNat := by rw [Nat.succ_mul]
            _ ≤ k * NumColumns.toNat := Nat.mul_le_mul_right _ hik
        rw [List.getElem?_append_left hlt]
        exact hget i j hik hj
      · have hieq : i = k := by omega
        subst hieq
        have hge : ((List.range i).foldl (GenerateTileInfoRow NumColumns) []).length ≤
            i * NumColumns.toNat + j := by rw [hlen]; omega
        rw [List.getElem?_append_right hge, hlen, Nat.add_sub_cancel_left, List.getElem?_map,
          List.getElem?_range hj]
        rfl

theorem GenerateTileInfoLoop_length (NumRows NumColumns : Int) :
    (GenerateTileInfoLoop NumRows NumColumns).length = NumRows.toNat * NumColumns.toNat :=
  (GenerateTileInfo_outer NumColumns NumRows.toNat).1

theorem GenerateTileInfoLoop_getElem? (NumRows NumColumns Row Column : Int)
    (hr0 : 0 ≤ Row) (hr1 : Row < NumRows) (hc0 : 0 ≤ Column) (hc1 : Column < NumColumns) :
    (GenerateTileInfoLoop NumRows NumColumns)[(Row * NumColumns + Column).toNat]? =
      some (FTileInfo.ofRowColumn Row Column) := by
  have h := (GenerateTileInfo_outer NumColumns NumRows.toNat).2 Row.toNat Column.toNat
    (by omega) (by omega)
  have hidx : (Row * NumColumns + Column).toNat = Row.toNat * NumColumns.toNat + Column.toNat := by
    have h1 : (Row.toNat : Int) = Row := Int.toNat_of_nonneg hr0
    have h2 : (Column.toNat : Int) = Column := Int.toNat_of_nonneg hc0
    have h3 : (NumColumns.toNat : Int) = NumColumns := Int.toNat_of_nonneg (by omega)
    have h4 : 0 ≤ Row * NumColumns := mul_nonneg hr0 (by omega)
    zify
    rw [Int.toNat_of_nonneg (by omega), h1, h2, h3]
  unfold GenerateTileInfoLoop
  rw [hidx, h, Int.toNat_of_nonneg hr0, Int.toNat_of_nonneg hc0]

end AGridManager

/-! ## The tile store: lookup, update, bounds -/

namespace AGridManager

/-- C1 (failing input). On the generated 2x3 store, `SetTileInfoAtPosition(1, 0, s)`
returns true, yet the following `GetTileInfoAtPositionCopy(1, 0)` still yields
the untouched default tile, while the other in-range cell (0, 2), which held a
default tile before, now carries the flags and the occupant of `s`: the write
went to flat index `1 * NumRows + 0 = 2` instead of `1 * NumColumns + 0 = 3`. -/
theorem SetTileInfoAtPosition_misplaces_on_2x3 :
    ((Constructed 2 3 [] []).GenerateTileInfo).GetTileInfoAtPositionCopy 0 2 =
      some (⟨⟨0, 2⟩, true, true, none⟩, true) ∧
    (((Constructed 2 3 [] []).GenerateTileInfo).SetTileInfoAtPosition 1 0
        ⟨⟨-1, -1⟩, false, false, some 7⟩).map
      (fun r => (r.1, r.2.GetTileInfoAtPositionCopy 1 0, r.2.GetTileInfoAtPositionCopy 0 2)) =
    some (true, some (⟨⟨1, 0⟩, true, true, none⟩, true),
      some (⟨⟨0, 2⟩, false, false, some 7⟩, true)) := by
  decide

/-- C2 (failing input). On the generated 3x2 store (6 tiles) the position (2, 1)
passes both guards of `SetTileInfoAtPosition`, the flat index it computes is
`2 * NumRows + 1 = 7`, outside `[0, 6)`, and the range check of the array
access fails: the call aborts instead of returning a flag. -/
theorem SetTileInfoAtPosition_range_check_fails_on_3x2 :
    ((Constructed 3 2 [] []).GenerateTileInfo).IsGridInfoInitialized = true ∧
    ((Constructed 3 2 [] []).GenerateTileInfo).IsValidTile 2 1 = true ∧
    ((Constructed 3 2 [] []).GenerateTileInfo).TilesInfo.length = 6 ∧
    (2 : Int) * ((Constructed 3 2 [] []).GenerateTileInfo).NumRows + 1 = 7 ∧
    ((Constructed 3 2 [] []).GenerateTileInfo).SetTileInfoAtPosition 2 1
        ⟨⟨-1, -1⟩, false, false, some 7⟩ = none := by
  decide

/-- C3. `GetTileInfoAtPositionCopy` always returns; it reports `bValid = false`
exactly when the tile count differs from `NumRows * NumColumns` or the position
is out of range, and then the returned tile is the sentinel with position
(-1, -1); otherwise it reports `bValid = true` and returns the entry stored at
flat index `Row * NumColumns + Column`. -/
theorem GetTileInfoAtPositionCopy_spec (g : AGridManager) (Row Column : Int) :
    ∃ Tile bValid, g.GetTileInfoAtPositionCopy Row Column = some (Tile, bValid) ∧
      (bValid = false ↔
        ((g.TilesInfo.length : Int) ≠ g.NumRows * g.NumColumns ∨
          ¬ (0 ≤ Row ∧ Row < g.NumRows ∧ 0 ≤ Column ∧ Column < g.NumColumns))) ∧
      (bValid = false → Tile = ⟨⟨-1, -1⟩, true, true, none⟩) ∧
      (bValid = true →
        0 ≤ Row * g.NumColumns + Column ∧
        g.TilesInfo[(Row * g.NumColumns + Column).toNat]? = some Tile) := by
  by_cases h : (g.TilesInfo.length : Int) ≠ g.NumRows * g.NumColumns ∨
      ¬ (0 ≤ Row ∧ Row < g.NumRows ∧ 0 ≤ Column ∧ Column < g.NumColumns)
  · refine ⟨_, false, GetTileInfoAtPositionCopy_invalid g Row Column h, ?_, ?_, ?_⟩
    · simp only [true_iff]; exact h
    · intro _; rfl
    · intro hc; cases hc
  · have hinit : (g.TilesInfo.length : Int) = g.NumRows * g.NumColumns := by
      by_contra hc; exact h (Or.inl hc)
    have hin : 0 ≤ Row ∧ Row < g.NumRows ∧ 0 ≤ Column ∧ Column < g.NumColumns := by
      by_contra hc; exact h (Or.inr hc)
    obtain ⟨hr0, hr1, hc0, hc1⟩ := hin
    obtain ⟨Tile, hTile, hget⟩ := GetTileInfoAtPositionCopy_inRange g Row Column hinit hr0 hr1 hc0 hc1
    refine ⟨Tile, true, hget, ?_, ?_, ?_⟩
    · constructor
      · intro hc; cases hc
      · intro hc; exact absurd hc h
    · intro hc; cases hc
    · intro _; exact ⟨(flatIndex_bounds hr0 hr1 hc0 hc1).1, hTile⟩

/-- C4. When the store is not generated, or the position is out of range,
`SetTileInfoAtPosition` returns false and the state after the call is the
state before it (every tile and the modifiers flag included);
`GetTileInfoAtPositionCopy`, a `const` method and hence a function of the
state alone, returns the sentinel tile with `bValid = false`. -/
theorem SetTileInfoAtPosition_failure_atomic (g : AGridManager) (Row Column : Int)
    (TileInfoIn : FTileInfo)
    (h : (g.TilesInfo.length : Int) ≠ g.NumRows * g.NumColumns ∨
      ¬ (0 ≤ Row ∧ Row < g.NumRows ∧ 0 ≤ Column ∧ Column < g.NumColumns)) :
    g.SetTileInfoAtPosition Row Column TileInfoIn = some (false, g) ∧
    g.GetTileInfoAtPositionCopy Row Column = some (⟨⟨-1, -1⟩, true, true, none⟩, false) :=
  ⟨SetTileInfoAtPosition_invalid g Row Column TileInfoIn h,
    GetTileInfoAtPositionCopy_invalid g Row Column h⟩

/-- Witness of C4: row 3 is out of range on the generated 3x3 store. -/
theorem SetTileInfoAtPosition_failure_atomic_witness :
    ((((Constructed 3 3 [] []).GenerateTileInfo).TilesInfo.length : Int) ≠
        ((Constructed 3 3 [] []).GenerateTileInfo).NumRows *
          ((Constructed 3 3 [] []).GenerateTileInfo).NumColumns ∨
      ¬ ((0 : Int) ≤ 3 ∧ 3 < ((Constructed 3 3 [] []).GenerateTileInfo).NumRows ∧ (0 : Int) ≤ 1 ∧
          1 < ((Constructed 3 3 [] []).GenerateTileInfo).NumColumns)) ∧
    (((Constructed 3 3 [] []).GenerateTileInfo).SetTileInfoAtPosition 3 1
        ⟨⟨-1, -1⟩, false, false, some 7⟩ =
      some (false, (Constructed 3 3 [] []).GenerateTileInfo) ∧
    ((Constructed 3 3 [] []).GenerateTileInfo).GetTileInfoAtPositionCopy 3 1 =
      some (⟨⟨-1, -1⟩, true, true, none⟩, false)) :=
  ⟨by decide,
    SetTileInfoAtPosition_failure_atomic ((Constructed 3 3 [] []).GenerateTileInfo) 3 1
      ⟨⟨-1, -1⟩, false, false, some 7⟩ (by decide)⟩

/-- C5. For all integers `Row` and `Column`, `IsValidTile(Row, Column)` is true
if and only if `0 <= Row < NumRows` and `0 <= Column < NumColumns`. -/
theorem IsValidTile_inBounds (g : AGridManager) (Row Column : Int) :
    g.IsValidTile Row Column = true ↔
      (0 ≤ Row ∧ Row < g.NumRows) ∧ (0 ≤ Column ∧ Column < g.NumColumns) := by
  rw [IsValidTile_iff]
  tauto

end AGridManager

/-! ## Generation of the tile store -/

namespace AGridManager

theorem GenerateTileInfo_of_initialized (g : AGridManager)
    (h : (g.TilesInfo.length : Int) = g.NumRows * g.NumColumns) : g.GenerateTileInfo = g := by
  simp [GenerateTileInfo, (IsGridInfoInitialized_iff g).2 h]

theorem GenerateTileInfo_of_not_initialized (g : AGridManager)
    (h : (g.TilesInfo.length : Int) ≠ g.NumRows * g.NumColumns) :
    g.GenerateTileInfo =
      { g with
        bStartingModifiersInitialized := false
        TilesInfo := GenerateTileInfoLoop g.NumRows g.NumColumns } := by
  have hI : g.IsGridInfoInitialized = false := by
    rw [← Bool.not_eq_true, IsGridInfoInitialized_iff]; exact h
  simp [GenerateTileInfo, hI]

/-- With positive dimensions the rebuilt array has `NumRows * NumColumns`
entries, so the rebuilt store counts as initialised. -/
theorem GenerateTileInfoLoop_length_int (NumRows NumColumns : Int)
    (hr : 0 ≤ NumRows) (hc : 0 ≤ NumColumns) :
    ((GenerateTileInfoLoop NumRows NumColumns).length : Int) = NumRows * NumColumns := by
  rw [GenerateTileInfoLoop_length]
  push_cast
  rw [Int.toNat_of_nonneg hr, Int.toNat_of_nonneg hc]

/-- C6. With `NumRows > 0`, `NumColumns > 0` and a tile count different from
`NumRows * NumColumns`, `GenerateTileInfo` leaves exactly `NumRows * NumColumns`
tiles, keeps the configured dimensions, clears the modifiers flag, and for every
in-range `(r, c)` the entry at flat index `r * NumColumns + c` is the tile with
position `(r, c)`, both flags true and no occupant, which is also what
`GetTileInfoAtPositionCopy(r, c)` then returns with `bValid = true`. -/
theorem GenerateTileInfo_regenerates (g : AGridManager)
    (hr : 0 < g.NumRows) (hc : 0 < g.NumColumns)
    (hne : (g.TilesInfo.length : Int) ≠ g.NumRows * g.NumColumns) :
    (g.GenerateTileInfo.TilesInfo.length : Int) = g.NumRows * g.NumColumns ∧
    g.GenerateTileInfo.bStartingModifiersInitialized = false ∧
    g.GenerateTileInfo.NumRows = g.NumRows ∧
    g.GenerateTileInfo.NumColumns = g.NumColumns ∧
    ∀ r c : Int, 0 ≤ r → r < g.NumRows → 0 ≤ c → c < g.NumColumns →
      g.GenerateTileInfo.TilesInfo[(r * g.NumColumns + c).toNat]? =
        some ⟨⟨r, c⟩, true, true, none⟩ ∧
      g.GenerateTileInfo.GetTileInfoAtPositionCopy r c =
        some (⟨⟨r, c⟩, true, true, none⟩, true) := by
  rw [GenerateTileInfo_of_not_initialized g hne]
  have hlen := GenerateTileInfoLoop_length_int g.NumRows g.NumColumns (by omega) (by omega)
  refine ⟨hlen, rfl, rfl, rfl, ?_⟩
  intro r c hr0 hr1 hc0 hc1
  have hel := GenerateTileInfoLoop_getElem? g.NumRows g.NumColumns r c hr0 hr1 hc0 hc1
  refine ⟨hel, ?_⟩
  obtain ⟨Tile, hTile, hget⟩ := GetTileInfoAtPositionCopy_inRange
    { g with
      bStartingModifiersInitialized := false
      TilesInfo := GenerateTileInfoLoop g.NumRows g.NumColumns } r c hlen hr0 hr1 hc0 hc1
  rw [hget]
  have hTile2 : (GenerateTileInfoLoop g.NumRows g.NumColumns)[(r * g.NumColumns + c).toNat]? =
      some Tile := hTile
  rw [hel] at hTile2
  cases hTile2
  rfl

/-- Witness of C6: on the freshly constructed 10x10 grid, `get(5, 5)` after
`GenerateTileInfo` is the default tile with position (5, 5). -/
theorem GenerateTileInfo_regenerates_witness :
    (0 < (Constructed 10 10 [] []).NumRows ∧ 0 < (Constructed 10 10 [] []).NumColumns ∧
      ((Constructed 10 10 [] []).TilesInfo.length : Int) ≠
        (Constructed 10 10 [] []).NumRows * (Constructed 10 10 [] []).NumColumns) ∧
    (Constructed 10 10 [] []).GenerateTileInfo.GetTileInfoAtPositionCopy 5 5 =
      some (⟨⟨5, 5⟩, true, true, none⟩, true) :=
  ⟨by decide,
    ((GenerateTileInfo_regenerates (Constructed 10 10 [] []) (by decide) (by decide)
      (by decide)).2.2.2.2 5 5 (by decide) (by decide) (by decide) (by decide)).2⟩

/-- C7. `GenerateTileInfo` is idempotent, and on a store whose tile count
already equals `NumRows * NumColumns` (whatever its tiles hold) it changes
nothing: tiles and modifiers flag stay as they were. -/
theorem GenerateTileInfo_idempotent (g : AGridManager) :
    g.GenerateTileInfo.GenerateTileInfo = g.GenerateTileInfo ∧
    ((g.TilesInfo.length : Int) = g.NumRows * g.NumColumns → g.GenerateTileInfo = g) := by
  refine ⟨?_, GenerateTileInfo_of_initialized g⟩
  by_cases h : (g.TilesInfo.length : Int) = g.NumRows * g.NumColumns
  · rw [GenerateTileInfo_of_initialized g h, GenerateTileInfo_of_initialized g h]
  · rw [GenerateTileInfo_of_not_initialized g h]
    by_cases h2 : ((GenerateTileInfoLoop g.NumRows g.NumColumns).length : Int) =
        g.NumRows * g.NumColumns
    · exact GenerateTileInfo_of_initialized _ h2
    · exact GenerateTileInfo_of_not_initialized _ h2

/-- Witness of C7: a 2x2 store whose tile (1, 1) has been claimed and whose
modifiers flag is set is left as it is by `GenerateTileInfo`. -/
theorem GenerateTileInfo_idempotent_witness :
    (ClaimedStore2x2.TilesInfo.length : Int) = ClaimedStore2x2.NumRows * ClaimedStore2x2.NumColumns ∧
    ClaimedStore2x2.GenerateTileInfo = ClaimedStore2x2 :=
  ⟨by decide, (GenerateTileInfo_idempotent ClaimedStore2x2).2 (by decide)⟩

end AGridManager

/-! ## Startup modifiers -/

namespace AGridManager

/-- On an initialised square grid the setter writes the cell it was asked to
write: the index `Row * NumRows + Column` is the row-major index. -/
theorem SetTileInfoAtPosition_square (g : AGridManager) (Row Column : Int) (TileInfoIn : FTileInfo)
    (hsq : g.NumRows = g.NumColumns)
    (hinit : (g.TilesInfo.length : Int) = g.NumRows * g.NumColumns)
    (hr0 : 0 ≤ Row) (hr1 : Row < g.NumRows) (hc0 : 0 ≤ Column) (hc1 : Column < g.NumColumns) :
    ∃ Tile, g.TilesInfo[(Row * g.NumColumns + Column).toNat]? = some Tile ∧
      g.SetTileInfoAtPosition Row Column TileInfoIn =
        some (true, { g with
          TilesInfo := g.TilesInfo.set (Row * g.NumColumns + Column).toNat
            (Tile.Assign TileInfoIn) }) := by
  obtain ⟨hb0, hb1⟩ := flatIndex_bounds hr0 hr1 hc0 hc1
  obtain ⟨Tile, hTile, hread⟩ :=
    TArrayRead_eq_some g.TilesInfo (Row * g.NumColumns + Column) hb0 (by omega)
  refine ⟨Tile, hTile, ?_⟩
  have hI : g.IsGridInfoInitialized = true := (IsGridInfoInitialized_iff g).2 hinit
  have hV : g.IsValidTile Row Column = true := (IsValidTile_iff g Row Column).2 ⟨hr0, hr1, hc0, hc1⟩
  simp [SetTileInfoAtPosition, hI, hV, hsq, hread]

/-- Reading an in-range cell of a list after a write to an in-range cell. -/
theorem getElem?_set_flatIndex (Tiles : List FTileInfo) (NumColumns : Int)
    (Row Column Row' Column' : Int) (New Old : FTileInfo)
    (hc0 : 0 ≤ Column) (hc1 : Column < NumColumns) (hc0' : 0 ≤ Column') (hc1' : Column' < NumColumns)
    (hr0 : 0 ≤ Row) (hr0' : 0 ≤ Row')
    (hOld : Tiles[(Row' * NumColumns + Column').toNat]? = some Old) :
    (Tiles.set (Row * NumColumns + Column).toNat New)[(Row' * NumColumns + Column').toNat]? =
      some (if Row' = Row ∧ Column' = Column then New else Old) := by
  have hn1 : 0 ≤ Row * NumColumns := mul_nonneg hr0 (by omega)
  have hn2 : 0 ≤ Row' * NumColumns := mul_nonneg hr0' (by omega)
  by_cases hpos : Row' = Row ∧ Column' = Column
  · obtain ⟨h1, h2⟩ := hpos
    subst h1 h2
    have hlt : (Row' * NumColumns + Column').toNat < Tiles.length := by
      by_contra hge
      rw [List.getElem?_eq_none (by omega)] at hOld
      cases hOld
    simp [List.getElem?_set, hlt]
  · have hne : (Row * NumColumns + Column).toNat ≠ (Row' * NumColumns + Column').toNat := by
      intro heq
      have heq2 : Row * NumColumns + Column = Row' * NumColumns + Column' := by omega
      obtain ⟨h1, h2⟩ := flatIndex_inj hc0 hc1 hc0' hc1' heq2
      exact hpos ⟨h1.symm, h2.symm⟩
    rw [List.getElem?_set_ne hne, hOld, if_neg hpos]

theorem FTileInfo_Assign_Assign (Tile TileInfoIn : FTileInfo) :
    (Tile.Assign TileInfoIn).Assign TileInfoIn = Tile.Assign TileInfoIn := rfl

/-- One pass of `InitializeStartingTilesModifiers` over a seed list, on an
initialised square grid: the pass never aborts, touches nothing but the tile
array, keeps its length, and a cell ends up assigned from `TileInfo` exactly
when its position occurs among the seeds. -/
theorem SetTileInfoForEach_square (TileInfo : FTileInfo) (Mods : List FTileMod) (g : AGridManager)
    (hsq : g.NumRows = g.NumColumns)
    (hinit : (g.TilesInfo.length : Int) = g.NumRows * g.NumColumns) :
    ∃ Tiles, SetTileInfoForEach TileInfo Mods g = some { g with TilesInfo := Tiles } ∧
      Tiles.length = g.TilesInfo.length ∧
      ∀ (r c : Int) (Old : FTileInfo), 0 ≤ r → r < g.NumRows → 0 ≤ c → c < g.NumColumns →
        g.TilesInfo[(r * g.NumColumns + c).toNat]? = some Old →
        Tiles[(r * g.NumColumns + c).toNat]? =
          some (if (⟨r, c⟩ : FTileMod) ∈ Mods then Old.Assign TileInfo else Old) := by
  induction Mods generalizing g with
  | nil =>
    refine ⟨g.TilesInfo, rfl, rfl, ?_⟩
    intro r c Old _ _ _ _ hOld
    simpa using hOld
  | cons TileMod Rest ih =>
    by_cases hin : 0 ≤ TileMod.Row ∧ TileMod.Row < g.NumRows ∧
        0 ≤ TileMod.Column ∧ TileMod.Column < g.NumColumns
    · obtain ⟨hr0, hr1, hc0, hc1⟩ := hin
      obtain ⟨Tile, hTile, hset⟩ :=
        SetTileInfoAtPosition_square g TileMod.Row TileMod.Column TileInfo hsq hinit hr0 hr1 hc0 hc1
      obtain ⟨Tiles, hrun, hlen, hcells⟩ := ih
        { g with
          TilesInfo := g.TilesInfo.set (TileMod.Row * g.NumColumns + TileMod.Column).toNat
            (Tile.Assign TileInfo) }
        hsq (by simpa using hinit)
      refine ⟨Tiles, ?_, by simpa using hlen, ?_⟩
      · simp only [SetTileInfoForEach, hset]
        exact hrun
      · intro r c Old h0 h1 h2 h3 hOld
        have hmid := getElem?_set_flatIndex g.TilesInfo g.NumColumns TileMod.Row TileMod.Column
          r c (Tile.Assign TileInfo) Old hc0 hc1 h2 h3 hr0 h0 hOld
        rw [hcells r c _ h0 h1 h2 h3 hmid]
        by_cases hpos : r = TileMod.Row ∧ c = TileMod.Column
        · obtain ⟨e1, e2⟩ := hpos
          subst e1 e2
          have hOldTile : Old = Tile := by
            rw [hTile] at hOld
            exact (Option.some.inj hOld).symm
          subst hOldTile
          simp [FTileInfo_Assign_Assign]
        · have hne : (⟨r, c⟩ : FTileMod) ≠ TileMod := by
            intro heq
            apply hpos
            rw [← heq]
            exact ⟨rfl, rfl⟩
          simp [hpos, hne]
    · have hset := SetTileInfoAtPosition_invalid g TileMod.Row TileMod.Column TileInfo (Or.inr hin)
      obtain ⟨Tiles, hrun, hlen, hcells⟩ := ih g hsq hinit
      refine ⟨Tiles, ?_, hlen, ?_⟩
      · simp only [SetTileInfoForEach, hset]
        exact hrun
      · intro r c Old h0 h1 h2 h3 hOld
        rw [hcells r c Old h0 h1 h2 h3 hOld]
        have hne : (⟨r, c⟩ : FTileMod) ≠ TileMod := by
          intro heq
          apply hin
          rw [← heq]
          exact ⟨h0, h1, h2, h3⟩
        simp [hne]

end AGridManager

namespace AGridManager

set_option maxRecDepth 100000 in
/-- C8 (failing input). On the freshly generated 10x10 grid with (3, 3) in both
seed lists, `InitializeStartingTilesModifiers` completes and afterwards
`GetTileInfoAtPositionCopy(3, 3)` has `bCanWalkOn = false` but
`bCanSpawnOn = true`: the no-walk pass writes a default-constructed tile with
only `bCanWalkOn` cleared, and the setter copies its `bCanSpawnOn = true` over
the flag cleared by the no-spawn pass. -/
theorem InitializeStartingTilesModifiers_both_lists_10x10 :
    (((Constructed 10 10 [⟨3, 3⟩] [⟨3, 3⟩]).GenerateTileInfo).InitializeStartingTilesModifiers).bind
        (fun g => g.GetTileInfoAtPositionCopy 3 3) =
      some ({ Position := ⟨3, 3⟩, bCanSpawnOn := true, bCanWalkOn := false, ActorOnTile := none },
        true) := by
  decide

/-- C9. On a freshly generated square grid with disjoint seed lists,
`InitializeStartingTilesModifiers` completes, sets the modifiers flag, keeps
the dimensions and the tile count, and every in-range tile `(r, c)` then has
`bCanSpawnOn = false` exactly when `(r, c)` is a no-spawn seed,
`bCanWalkOn = false` exactly when `(r, c)` is a no-walk seed, no occupant and
position `(r, c)`; seeds outside the grid therefore have no effect. -/
theorem InitializeStartingTilesModifiers_fresh_square (g0 : AGridManager)
    (hsq : g0.NumRows = g0.NumColumns) (hpos : 0 < g0.NumRows)
    (hne : (g0.TilesInfo.length : Int) ≠ g0.NumRows * g0.NumColumns)
    (hdisj : ∀ m, m ∈ g0.NoSpawningStartingTiles → m ∉ g0.NoWalkingStartingTiles) :
    ∃ g, g0.GenerateTileInfo.InitializeStartingTilesModifiers = some g ∧
      g.bStartingModifiersInitialized = true ∧
      g.NumRows = g0.NumRows ∧ g.NumColumns = g0.NumColumns ∧
      (g.TilesInfo.length : Int) = g0.NumRows * g0.NumColumns ∧
      ∀ r c : Int, 0 ≤ r → r < g0.NumRows → 0 ≤ c → c < g0.NumColumns →
        ∃ Tile, g.TilesInfo[(r * g0.NumColumns + c).toNat]? = some Tile ∧
          g.GetTileInfoAtPositionCopy r c = some (Tile, true) ∧
          Tile.Position = ⟨r, c⟩ ∧ Tile.ActorOnTile = none ∧
          (Tile.bCanSpawnOn = false ↔ (⟨r, c⟩ : FTileMod) ∈ g0.NoSpawningStartingTiles) ∧
          (Tile.bCanWalkOn = false ↔ (⟨r, c⟩ : FTileMod) ∈ g0.NoWalkingStartingTiles) := by
  have hcpos : 0 < g0.NumColumns := by omega
  have hlen0 := GenerateTileInfoLoop_length_int g0.NumRows g0.NumColumns (by omega) (by omega)
  rw [GenerateTileInfo_of_not_initialized g0 hne]
  obtain ⟨Tiles1, hrun1, hlen1, hcells1⟩ :=
    SetTileInfoForEach_square { FTileInfo.default with bCanSpawnOn := false }
      g0.NoSpawningStartingTiles
      { g0 with
        bStartingModifiersInitialized := false
        TilesInfo := GenerateTileInfoLoop g0.NumRows g0.NumColumns } hsq hlen0
  have hlen1i : (Tiles1.length : Int) = g0.NumRows * g0.NumColumns := by
    rw [hlen1]; exact hlen0
  obtain ⟨Tiles2, hrun2, hlen2, hcells2⟩ :=
    SetTileInfoForEach_square { FTileInfo.default with bCanWalkOn := false }
      g0.NoWalkingStartingTiles
      { g0 with bStartingModifiersInitialized := false, TilesInfo := Tiles1 } hsq hlen1i
  have hlen2i : (Tiles2.length : Int) = g0.NumRows * g0.NumColumns := by
    rw [hlen2]; exact hlen1i
  refine ⟨{ g0 with bStartingModifiersInitialized := true, TilesInfo := Tiles2 }, ?_, rfl, rfl, rfl,
    hlen2i, ?_⟩
  · simp only [InitializeStartingTilesModifiers, Bool.false_eq_true, if_false]
    rw [hrun1]
    simp only []
    rw [hrun2]
  · intro r c h0 h1 h2 h3
    have hfresh := GenerateTileInfoLoop_getElem? g0.NumRows g0.NumColumns r c h0 h1 h2 h3
    have hc1 := hcells1 r c _ h0 h1 h2 h3 hfresh
    have hc2 := hcells2 r c _ h0 h1 h2 h3 hc1
    obtain ⟨Tile, hTile, hget⟩ := GetTileInfoAtPositionCopy_inRange
      { g0 with bStartingModifiersInitialized := true, TilesInfo := Tiles2 } r c hlen2i h0 h1 h2 h3
    have hTile2 : Tiles2[(r * g0.NumColumns + c).toNat]? = some Tile := hTile
    refine ⟨Tile, hTile, hget, ?_⟩
    rw [hc2] at hTile2
    have hT := (Option.some.inj hTile2).symm
    subst hT
    by_cases hw : (⟨r, c⟩ : FTileMod) ∈ g0.NoWalkingStartingTiles
    · have hs : (⟨r, c⟩ : FTileMod) ∉ g0.NoSpawningStartingTiles := fun hs => hdisj _ hs hw
      simp [hw, hs, FTileInfo.Assign, FTileInfo.default, FTileInfo.ofRowColumn]
    · by_cases hs : (⟨r, c⟩ : FTileMod) ∈ g0.NoSpawningStartingTiles
      · simp [hw, hs, FTileInfo.Assign, FTileInfo.default, FTileInfo.ofRowColumn]
      · simp [hw, hs, FTileInfo.Assign, FTileInfo.default, FTileInfo.ofRowColumn]

end AGridManager

namespace AGridManager

/-- Witness of C9: the 3x3 grid with no-spawn seeds (1, 1), (5, 0) and no-walk
seed (0, 2). -/
theorem InitializeStartingTilesModifiers_fresh_square_witness :
    (SeededGrid3x3.NumRows = SeededGrid3x3.NumColumns ∧ 0 < SeededGrid3x3.NumRows ∧
      (SeededGrid3x3.TilesInfo.length : Int) ≠ SeededGrid3x3.NumRows * SeededGrid3x3.NumColumns ∧
      ∀ m, m ∈ SeededGrid3x3.NoSpawningStartingTiles → m ∉ SeededGrid3x3.NoWalkingStartingTiles) ∧
    ∃ g, SeededGrid3x3.GenerateTileInfo.InitializeStartingTilesModifiers = some g ∧
      g.bStartingModifiersInitialized = true ∧
      g.NumRows = SeededGrid3x3.NumRows ∧ g.NumColumns = SeededGrid3x3.NumColumns ∧
      (g.TilesInfo.length : Int) = SeededGrid3x3.NumRows * SeededGrid3x3.NumColumns ∧
      ∀ r c : Int, 0 ≤ r → r < SeededGrid3x3.NumRows → 0 ≤ c → c < SeededGrid3x3.NumColumns →
        ∃ Tile, g.TilesInfo[(r * SeededGrid3x3.NumColumns + c).toNat]? = some Tile ∧
          g.GetTileInfoAtPositionCopy r c = some (Tile, true) ∧
          Tile.Position = ⟨r, c⟩ ∧ Tile.ActorOnTile = none ∧
          (Tile.bCanSpawnOn = false ↔
            (⟨r, c⟩ : FTileMod) ∈ SeededGrid3x3.NoSpawningStartingTiles) ∧
          (Tile.bCanWalkOn = false ↔
            (⟨r, c⟩ : FTileMod) ∈ SeededGrid3x3.NoWalkingStartingTiles) :=
  ⟨by decide,
    InitializeStartingTilesModifiers_fresh_square SeededGrid3x3 (by decide) (by decide)
      (by decide) (by decide)⟩

/-! ## Walkable and spawnable tiles -/

/-- C10. On a generated store, for all integers `Row` and `Column`, both
predicates return, `IsValidWalkTile` is true exactly when the position is in
range and the tile stored at flat index `Row * NumColumns + Column` has
`bCanWalkOn`, and `IsValidSpawnTile` is true exactly when the position is in
range and that stored tile has `bCanSpawnOn`. -/
theorem IsValidWalkTile_IsValidSpawnTile_generated (g : AGridManager) (Row Column : Int)
    (hinit : (g.TilesInfo.length : Int) = g.NumRows * g.NumColumns) :
    ∃ bWalk bSpawn, g.IsValidWalkTile Row Column = some bWalk ∧
      g.IsValidSpawnTile Row Column = some bSpawn ∧
      (bWalk = true ↔
        ((0 ≤ Row ∧ Row < g.NumRows ∧ 0 ≤ Column ∧ Column < g.NumColumns) ∧
          ∃ Tile, g.TilesInfo[(Row * g.NumColumns + Column).toNat]? = some Tile ∧
            Tile.bCanWalkOn = true)) ∧
      (bSpawn = true ↔
        ((0 ≤ Row ∧ Row < g.NumRows ∧ 0 ≤ Column ∧ Column < g.NumColumns) ∧
          ∃ Tile, g.TilesInfo[(Row * g.NumColumns + Column).toNat]? = some Tile ∧
            Tile.bCanSpawnOn = true)) := by
  by_cases hin : 0 ≤ Row ∧ Row < g.NumRows ∧ 0 ≤ Column ∧ Column < g.NumColumns
  · obtain ⟨hr0, hr1, hc0, hc1⟩ := hin
    obtain ⟨Tile, hTile, hget⟩ := GetTileInfoAtPositionCopy_inRange g Row Column hinit hr0 hr1 hc0 hc1
    have hV : g.IsValidTile Row Column = true := (IsValidTile_iff g Row Column).2 ⟨hr0, hr1, hc0, hc1⟩
    refine ⟨Tile.bCanWalkOn, Tile.bCanSpawnOn, ?_, ?_, ?_, ?_⟩
    · simp [IsValidWalkTile, hV, hget]
    · simp [IsValidSpawnTile, hV, hget]
    · constructor
      · intro h; exact ⟨⟨hr0, hr1, hc0, hc1⟩, Tile, hTile, h⟩
      · rintro ⟨_, Tile2, hTile2, h⟩
        rw [hTile] at hTile2
        cases hTile2
        exact h
    · constructor
      · intro h; exact ⟨⟨hr0, hr1, hc0, hc1⟩, Tile, hTile, h⟩
      · rintro ⟨_, Tile2, hTile2, h⟩
        rw [hTile] at hTile2
        cases hTile2
        exact h
  · have hV : g.IsValidTile Row Column = false := by
      rw [← Bool.not_eq_true, IsValidTile_iff]; exact hin
    refine ⟨false, false, ?_, ?_, ?_, ?_⟩
    · simp [IsValidWalkTile, hV]
    · simp [IsValidSpawnTile, hV]
    · constructor
      · intro h; cases h
      · rintro ⟨h, _⟩; exact absurd h hin
    · constructor
      · intro h; cases h
      · rintro ⟨h, _⟩; exact absurd h hin

/-- Witness of C10: on the 2x2 store whose tile (1, 1) is claimed, (1, 1) is
neither walkable nor spawnable. -/
theorem IsValidWalkTile_IsValidSpawnTile_generated_witness :
    (ClaimedStore2x2.TilesInfo.length : Int) =
        ClaimedStore2x2.NumRows * ClaimedStore2x2.NumColumns ∧
    ∃ bWalk bSpawn, ClaimedStore2x2.IsValidWalkTile 1 1 = some bWalk ∧
      ClaimedStore2x2.IsValidSpawnTile 1 1 = some bSpawn ∧
      (bWalk = true ↔
        (((0 : Int) ≤ 1 ∧ 1 < ClaimedStore2x2.NumRows ∧ (0 : Int) ≤ 1 ∧
            1 < ClaimedStore2x2.NumColumns) ∧
          ∃ Tile, ClaimedStore2x2.TilesInfo[(1 * ClaimedStore2x2.NumColumns + 1).toNat]? =
              some Tile ∧ Tile.bCanWalkOn = true)) ∧
      (bSpawn = true ↔
        (((0 : Int) ≤ 1 ∧ 1 < ClaimedStore2x2.NumRows ∧ (0 : Int) ≤ 1 ∧
            1 < ClaimedStore2x2.NumColumns) ∧
          ∃ Tile, ClaimedStore2x2.TilesInfo[(1 * ClaimedStore2x2.NumColumns + 1).toNat]? =
              some Tile ∧ Tile.bCanSpawnOn = true)) :=
  ⟨by decide, IsValidWalkTile_IsValidSpawnTile_generated ClaimedStore2x2 1 1 (by decide)⟩

end AGridManager

/-! ## Walkability and spawnability before generation -/

namespace AGridManager

/-- The lookup never aborts: its array access is guarded by the two checks. -/
theorem GetTileInfoAtPositionCopy_total (g : AGridManager) (Row Column : Int) :
    ∃ Tile bValid, g.GetTileInfoAtPositionCopy Row Column = some (Tile, bValid) := by
  by_cases h : (g.TilesInfo.length : Int) ≠ g.NumRows * g.NumColumns ∨
      ¬ (0 ≤ Row ∧ Row < g.NumRows ∧ 0 ≤ Column ∧ Column < g.NumColumns)
  · exact ⟨_, _, GetTileInfoAtPositionCopy_invalid g Row Column h⟩
  · have hinit : (g.TilesInfo.length : Int) = g.NumRows * g.NumColumns := by
      by_contra hc; exact h (Or.inl hc)
    have hin : 0 ≤ Row ∧ Row < g.NumRows ∧ 0 ≤ Column ∧ Column < g.NumColumns := by
      by_contra hc; exact h (Or.inr hc)
    obtain ⟨Tile, _, hget⟩ :=
      GetTileInfoAtPositionCopy_inRange g Row Column hinit hin.1 hin.2.1 hin.2.2.1 hin.2.2.2
    exact ⟨Tile, true, hget⟩

/-- On a store that is not generated both predicates reduce to the range check:
the sentinel tile returned by the lookup has both flags true. -/
theorem IsValidWalkTile_IsValidSpawnTile_not_generated (g : AGridManager) (Row Column : Int)
    (h : (g.TilesInfo.length : Int) ≠ g.NumRows * g.NumColumns) :
    g.IsValidWalkTile Row Column = some (g.IsValidTile Row Column) ∧
    g.IsValidSpawnTile Row Column = some (g.IsValidTile Row Column) := by
  have hget := GetTileInfoAtPositionCopy_invalid g Row Column (Or.inl h)
  cases hV : g.IsValidTile Row Column <;>
    simp [IsValidWalkTile, IsValidSpawnTile, hV, hget, FTileInfo.ofRowColumn]

/-- C11 (failing input). On the constructed 10x10 grid, before `GenerateTileInfo`
has run (empty tile array, so the store is not generated), `IsValidWalkTile(0, 0)`
and `IsValidSpawnTile(0, 0)` both return true: the lookup hands back the
sentinel `FTileInfo(-1, -1)`, whose flags are true, and its `bValid` is not
read. -/
theorem IsValidWalkTile_IsValidSpawnTile_true_before_generation :
    (Constructed 10 10 [] []).IsGridInfoInitialized = false ∧
    (Constructed 10 10 [] []).GetTileInfoAtPositionCopy 0 0 =
      some (⟨⟨-1, -1⟩, true, true, none⟩, false) ∧
    (Constructed 10 10 [] []).IsValidWalkTile 0 0 = some true ∧
    (Constructed 10 10 [] []).IsValidSpawnTile 0 0 = some true := by
  decide

end AGridManager

/-! ## Neighbouring tiles -/

namespace AGridManager

theorem mem_IntLoopRange (Low High v : Int) :
    v ∈ IntLoopRange Low High ↔ Low ≤ v ∧ v ≤ High := by
  unfold IntLoopRange
  simp only [List.mem_map, List.mem_range]
  constructor
  · rintro ⟨k, hk, rfl⟩
    omega
  · rintro ⟨h1, h2⟩
    refine ⟨(v - Low).toNat, by omega, by omega⟩

theorem pairwise_IntLoopRange (Low High : Int) :
    (IntLoopRange Low High).Pairwise (fun a b => a < b) := by
  unfold IntLoopRange
  rw [List.pairwise_map]
  exact (List.pairwise_lt_range _).imp (fun h => by omega)

/-- The inner loop appends `FTileInfo(i, j)` for the columns `j` whose looked-up
tile is walkable, in the order of the loop, and never aborts. -/
theorem GetNeighboringTilesRow_eq (g : AGridManager) (i : Int) (Columns : List Int)
    (Neighbors : List FTileInfo) :
    GetNeighboringTilesRow g i Columns Neighbors =
      some (Neighbors ++
        (Columns.filter (fun j => g.LookupCanWalkOn i j)).map
          (fun j => FTileInfo.ofRowColumn i j)) := by
  induction Columns generalizing Neighbors with
  | nil => simp [GetNeighboringTilesRow]
  | cons j Columns ih =>
    obtain ⟨Tile, bValid, hget⟩ := GetTileInfoAtPositionCopy_total g i j
    have hlook : g.LookupCanWalkOn i j = Tile.bCanWalkOn := by
      simp [LookupCanWalkOn, hget]
    simp only [GetNeighboringTilesRow, hget, ih, List.filter_cons, hlook]
    cases Tile.bCanWalkOn <;> simp

/-- The two loops together: row by row, the walkable looked-up candidates. -/
theorem GetNeighboringTilesRows_eq (g : AGridManager) (Columns Rows : List Int)
    (Neighbors : List FTileInfo) :
    GetNeighboringTilesRows g Columns Rows Neighbors =
      some (Neighbors ++ Rows.flatMap (fun i =>
        (Columns.filter (fun j => g.LookupCanWalkOn i j)).map
          (fun j => FTileInfo.ofRowColumn i j))) := by
  induction Rows generalizing Neighbors with
  | nil => simp [GetNeighboringTilesRows]
  | cons i Rows ih =>
    simp only [GetNeighboringTilesRows, GetNeighboringTilesRow_eq, ih, List.flatMap_cons,
      List.append_assoc]

theorem GetNeighboringTiles_eq (g : AGridManager)
    (Row Column NeighboringRows NeighboringColumns : Int) :
    g.GetNeighboringTiles Row Column NeighboringRows NeighboringColumns =
      some ((IntLoopRange (Row - NeighboringRows) (Row + NeighboringRows)).flatMap (fun i =>
        ((IntLoopRange (Column - NeighboringColumns) (Column + NeighboringColumns)).filter
          (fun j => g.LookupCanWalkOn i j)).map (fun j => FTileInfo.ofRowColumn i j))) := by
  simp [GetNeighboringTiles, GetNeighboringTilesRows_eq]

/-- The positions of the result are strictly increasing in row-major order,
whatever the candidates selected. -/
theorem pairwise_positions_flatMap (Walkable : Int → Int → Bool) (Columns Rows : List Int)
    (hC : Columns.Pairwise (fun a b => a < b)) (hR : Rows.Pairwise (fun a b => a < b)) :
    ((Rows.flatMap (fun i =>
        (Columns.filter (fun j => Walkable i j)).map (fun j => FTileInfo.ofRowColumn i j))).map
      (fun Tile => Tile.Position)).Pairwise
      (fun p q => p.X < q.X ∨ (p.X = q.X ∧ p.Y < q.Y)) := by
  rw [List.pairwise_map, List.pairwise_flatMap]
  constructor
  · intro i _
    rw [List.pairwise_map]
    exact (hC.filter _).imp (fun h => Or.inr ⟨rfl, h⟩)
  · refine hR.imp ?_
    intro i i' hlt a ha b hb
    simp only [List.mem_map, List.mem_filter] at ha hb
    obtain ⟨j, _, rfl⟩ := ha
    obtain ⟨j', _, rfl⟩ := hb
    exact Or.inl hlt

end AGridManager

namespace AGridManager

/-- C12. On a generated store, for all radii (non-negative or not), when the window
`[Row - NeighboringRows, Row + NeighboringRows] x [Column - NeighboringColumns,
Column + NeighboringColumns]` lies inside the grid, `GetNeighboringTiles`
returns, the positions of the returned tiles are exactly the window positions
whose stored tile has `bCanWalkOn`, and they are listed in strictly increasing
row-major order (hence each once). -/
theorem GetNeighboringTiles_window_inside (g : AGridManager)
    (Row Column NeighboringRows NeighboringColumns : Int)
    (hinit : (g.TilesInfo.length : Int) = g.NumRows * g.NumColumns)
    (hr0 : 0 ≤ Row - NeighboringRows) (hr1 : Row + NeighboringRows < g.NumRows)
    (hc0 : 0 ≤ Column - NeighboringColumns) (hc1 : Column + NeighboringColumns < g.NumColumns) :
    ∃ Neighbors, g.GetNeighboringTiles Row Column NeighboringRows NeighboringColumns =
        some Neighbors ∧
      (∀ i j : Int, (⟨i, j⟩ : FIntPoint) ∈ Neighbors.map (fun Tile => Tile.Position) ↔
        (Row - NeighboringRows ≤ i ∧ i ≤ Row + NeighboringRows ∧
          Column - NeighboringColumns ≤ j ∧ j ≤ Column + NeighboringColumns ∧
          ∃ Tile, g.TilesInfo[(i * g.NumColumns + j).toNat]? = some Tile ∧
            Tile.bCanWalkOn = true)) ∧
      (Neighbors.map (fun Tile => Tile.Position)).Pairwise
        (fun p q => p.X < q.X ∨ (p.X = q.X ∧ p.Y < q.Y)) := by
  refine ⟨_, GetNeighboringTiles_eq g Row Column NeighboringRows NeighboringColumns, ?_,
    pairwise_positions_flatMap _ _ _ (pairwise_IntLoopRange _ _) (pairwise_IntLoopRange _ _)⟩
  intro i j
  simp only [List.mem_map, List.mem_flatMap, List.mem_filter, mem_IntLoopRange]
  constructor
  · rintro ⟨Tile, ⟨i', ⟨hi0, hi1⟩, j', ⟨⟨hj0, hj1⟩, hwalk⟩, rfl⟩, hpos⟩
    have hi : i' = i := congrArg FIntPoint.X hpos
    have hj : j' = j := congrArg FIntPoint.Y hpos
    subst hi hj
    obtain ⟨Tile, hTile, hget⟩ := GetTileInfoAtPositionCopy_inRange g i' j' hinit
      (by omega) (by omega) (by omega) (by omega)
    refine ⟨hi0, hi1, hj0, hj1, Tile, hTile, ?_⟩
    simpa [LookupCanWalkOn, hget] using hwalk
  · rintro ⟨hi0, hi1, hj0, hj1, Tile, hTile, hwalk⟩
    obtain ⟨Tile2, hTile2, hget⟩ := GetTileInfoAtPositionCopy_inRange g i j hinit
      (by omega) (by omega) (by omega) (by omega)
    rw [hTile] at hTile2
    cases hTile2
    refine ⟨FTileInfo.ofRowColumn i j, ⟨i, ⟨hi0, hi1⟩, j, ⟨⟨hj0, hj1⟩, ?_⟩, rfl⟩, rfl⟩
    simpa [LookupCanWalkOn, hget] using hwalk

set_option maxRecDepth 100000 in
/-- Witness of C12: `GetNeighboringTiles(5, 5, 1, 1)` on the fresh 10x10 grid.
The call returns the 9 positions of `[4, 6] x [4, 6]` in row-major order, and
the 8 positions other than (5, 5) once (5, 5) has been set non-walkable. -/
theorem GetNeighboringTiles_window_inside_witness :
    ((FreshGrid10x10.TilesInfo.length : Int) = FreshGrid10x10.NumRows * FreshGrid10x10.NumColumns ∧
      (0 : Int) ≤ 5 - 1 ∧ (5 : Int) + 1 < FreshGrid10x10.NumRows ∧
      (5 : Int) + 1 < FreshGrid10x10.NumColumns) ∧
    (∃ Neighbors, FreshGrid10x10.GetNeighboringTiles 5 5 1 1 = some Neighbors ∧
      (∀ i j : Int, (⟨i, j⟩ : FIntPoint) ∈ Neighbors.map (fun Tile => Tile.Position) ↔
        (5 - 1 ≤ i ∧ i ≤ 5 + 1 ∧ 5 - 1 ≤ j ∧ j ≤ 5 + 1 ∧
          ∃ Tile, FreshGrid10x10.TilesInfo[(i * FreshGrid10x10.NumColumns + j).toNat]? =
              some Tile ∧ Tile.bCanWalkOn = true)) ∧
      (Neighbors.map (fun Tile => Tile.Position)).Pairwise
        (fun p q => p.X < q.X ∨ (p.X = q.X ∧ p.Y < q.Y))) ∧
    (FreshGrid10x10.GetNeighboringTiles 5 5 1 1).map
        (fun Neighbors => Neighbors.map (fun Tile => Tile.Position)) =
      some [⟨4, 4⟩, ⟨4, 5⟩, ⟨4, 6⟩, ⟨5, 4⟩, ⟨5, 5⟩, ⟨5, 6⟩, ⟨6, 4⟩, ⟨6, 5⟩, ⟨6, 6⟩] ∧
    ((FreshGrid10x10.SetTileInfoAtPosition 5 5 ⟨⟨-1, -1⟩, true, false, none⟩).bind
        (fun r => r.2.GetNeighboringTiles 5 5 1 1)).map
        (fun Neighbors => Neighbors.map (fun Tile => Tile.Position)) =
      some [⟨4, 4⟩, ⟨4, 5⟩, ⟨4, 6⟩, ⟨5, 4⟩, ⟨5, 6⟩, ⟨6, 4⟩, ⟨6, 5⟩, ⟨6, 6⟩] :=
  ⟨by decide,
    GetNeighboringTiles_window_inside FreshGrid10x10 5 5 1 1 (by decide) (by decide) (by decide)
      (by decide) (by decide),
    by decide, by decide⟩

set_option maxRecDepth 100000 in
/-- C13 (failing input). On the fresh, fully walkable 10x10 grid
`GetNeighboringTiles(0, 0, 1, 1)` returns 9 tiles, five of them with a position
outside the grid ((-1, -1), (-1, 0), (-1, 1), (0, -1), (1, -1)): for an
out-of-range candidate the lookup returns the sentinel tile, whose `bCanWalkOn`
is true, and the loop tests that flag without reading `bValid`. -/
theorem GetNeighboringTiles_keeps_out_of_range_candidates :
    FreshGrid10x10.GetTileInfoAtPositionCopy (-1) 0 = some (⟨⟨-1, -1⟩, true, true, none⟩, false) ∧
    (FreshGrid10x10.GetNeighboringTiles 0 0 1 1).map
        (fun Neighbors => Neighbors.map (fun Tile => Tile.Position)) =
      some [⟨-1, -1⟩, ⟨-1, 0⟩, ⟨-1, 1⟩, ⟨0, -1⟩, ⟨0, 0⟩, ⟨0, 1⟩, ⟨1, -1⟩, ⟨1, 0⟩, ⟨1, 1⟩] := by
  decide

end AGridManager

/-! ## Coordinate transform -/

namespace AGridManager

/-- With a positive tile size and positive dimensions, dividing by the grid
extent and multiplying by the count of the same axis is dividing by the tile
size. -/
theorem LocationToTile_eq (g : AGridManager) (Location : FVector)
    (hts : 0 < g.TileSize) (hr : 0 < g.NumRows) (hc : 0 < g.NumColumns) :
    g.LocationToTile Location =
      (⌊(Location.X - g.ActorLocation.X) / g.TileSize⌋,
        ⌊(Location.Y - g.ActorLocation.Y) / g.TileSize⌋,
        g.IsValidTile ⌊(Location.X - g.ActorLocation.X) / g.TileSize⌋
          ⌊(Location.Y - g.ActorLocation.Y) / g.TileSize⌋) := by
  have hr' : (0 : ℚ) < (g.NumRows : ℚ) := by exact_mod_cast hr
  have hc' : (0 : ℚ) < (g.NumColumns : ℚ) := by exact_mod_cast hc
  have hx : (Location.X - g.ActorLocation.X) / g.GetGridWidth * (g.NumColumns : ℚ) =
      (Location.X - g.ActorLocation.X) / g.TileSize := by
    unfold GetGridWidth
    field_simp
    ring
  have hy : (Location.Y - g.ActorLocation.Y) / g.GetGridHeight * (g.NumRows : ℚ) =
      (Location.Y - g.ActorLocation.Y) / g.TileSize := by
    unfold GetGridHeight
    field_simp
    ring
  simp only [LocationToTile, hx, hy]

/-- The floor of a point half a tile past the `k`-th grid line is `k`. -/
theorem floor_half_tile (TileSize x : ℚ) (k : Int) (hts : 0 < TileSize)
    (hx : x = (k : ℚ) * TileSize + TileSize / 2) : ⌊x / TileSize⌋ = k := by
  have h : x / TileSize = (k : ℚ) + 1 / 2 := by
    rw [hx]
    field_simp
    ring
  rw [h, Int.floor_eq_iff]
  constructor <;> linarith

theorem FVector_add_X (a b : FVector) : (a + b).X = a.X + b.X := rfl

theorem FVector_add_Y (a b : FVector) : (a + b).Y = a.Y + b.Y := rfl

theorem FVector_add_Z (a b : FVector) : (a + b).Z = a.Z + b.Z := rfl

theorem GridLocationOf_X (g : AGridManager) (Row Column : Int) (bCenter : Bool) (Offset : FVector)
    (UninitializedZ : ℚ) :
    (g.GridLocationOf Row Column bCenter Offset UninitializedZ).X =
      g.ActorLocation.X + (Row : ℚ) * g.TileSize + (if bCenter then g.TileSize / 2 else 0) +
        Offset.X := by
  cases bCenter <;> simp only [GridLocationOf, FVector_add_X, FVector_add_Y] <;> simp <;> ring

theorem GridLocationOf_Y (g : AGridManager) (Row Column : Int) (bCenter : Bool) (Offset : FVector)
    (UninitializedZ : ℚ) :
    (g.GridLocationOf Row Column bCenter Offset UninitializedZ).Y =
      g.ActorLocation.Y + (Column : ℚ) * g.TileSize + (if bCenter then g.TileSize / 2 else 0) +
        Offset.Y := by
  cases bCenter <;> simp only [GridLocationOf, FVector_add_X, FVector_add_Y] <;> simp <;> ring

/-- C16. In exact arithmetic, for every grid with `NumRows > 0`, `NumColumns > 0`
and `TileSize > 0` (square or not, any origin) and every in-range `(Row, Column)`,
`LocationToTile` applied to the centred location returned by
`TileToGridLocation(Row, Column)` with zero offset yields `(Row, Column)` with
`bValid = true`. -/
theorem LocationToTile_TileToGridLocation_center (g : AGridManager) (Row Column : Int)
    (UninitializedZ : ℚ)
    (hr : 0 < g.NumRows) (hc : 0 < g.NumColumns) (hts : 0 < g.TileSize)
    (hr0 : 0 ≤ Row) (hr1 : Row < g.NumRows) (hc0 : 0 ≤ Column) (hc1 : Column < g.NumColumns) :
    (g.TileToGridLocation Row Column true ⟨0, 0, 0⟩ UninitializedZ).2 = true ∧
    g.LocationToTile (g.TileToGridLocation Row Column true ⟨0, 0, 0⟩ UninitializedZ).1 =
      (Row, Column, true) := by
  have hV : g.IsValidTile Row Column = true := (IsValidTile_iff g Row Column).2 ⟨hr0, hr1, hc0, hc1⟩
  refine ⟨hV, ?_⟩
  rw [LocationToTile_eq g _ hts hr hc]
  have hx : ⌊((g.TileToGridLocation Row Column true ⟨0, 0, 0⟩ UninitializedZ).1.X -
      g.ActorLocation.X) / g.TileSize⌋ = Row := by
    apply floor_half_tile _ _ _ hts
    simp only [TileToGridLocation, GridLocationOf_X, if_true]
    ring
  have hy : ⌊((g.TileToGridLocation Row Column true ⟨0, 0, 0⟩ UninitializedZ).1.Y -
      g.ActorLocation.Y) / g.TileSize⌋ = Column := by
    apply floor_half_tile _ _ _ hts
    simp only [TileToGridLocation, GridLocationOf_Y, if_true]
    ring
  rw [hx, hy, hV]

/-- Witness of C16: tile (1, 2) of a 2x3 grid of tile size 100. -/
theorem LocationToTile_TileToGridLocation_center_witness :
    (0 < (Constructed 2 3 [] []).NumRows ∧ 0 < (Constructed 2 3 [] []).NumColumns ∧
      0 < (Constructed 2 3 [] []).TileSize ∧
      (0 : Int) ≤ 1 ∧ 1 < (Constructed 2 3 [] []).NumRows ∧
      (0 : Int) ≤ 2 ∧ 2 < (Constructed 2 3 [] []).NumColumns) ∧
    ((Constructed 2 3 [] []).TileToGridLocation 1 2 true ⟨0, 0, 0⟩ 0).2 = true ∧
    (Constructed 2 3 [] []).LocationToTile
        ((Constructed 2 3 [] []).TileToGridLocation 1 2 true ⟨0, 0, 0⟩ 0).1 = (1, 2, true) :=
  ⟨⟨by decide, by decide, by norm_num [Constructed], by decide, by decide, by decide, by decide⟩,
    LocationToTile_TileToGridLocation_center (Constructed 2 3 [] []) 1 2 0 (by decide) (by decide)
      (by norm_num [Constructed]) (by decide) (by decide) (by decide) (by decide)⟩

end AGridManager

namespace AGridManager

/-- C18. For every store and all inputs, `TileToWalkGridLocation` and
`TileToSpawnGridLocation` return, their locations have the `X` and `Y` of the
location of `TileToGridLocation`, their `bValid` flags are the results of
`IsValidWalkTile` and `IsValidSpawnTile`, and each of these flags implies the
`bValid` of `TileToGridLocation`. -/
theorem TileToWalkGridLocation_TileToSpawnGridLocation_spec (g : AGridManager)
    (Row Column : Int) (bCenter : Bool) (Offset : FVector) (Z ZWalk ZSpawn : ℚ) :
    ∃ bWalk bSpawn LocationWalk LocationSpawn,
      g.IsValidWalkTile Row Column = some bWalk ∧
      g.IsValidSpawnTile Row Column = some bSpawn ∧
      g.TileToWalkGridLocation Row Column bCenter Offset ZWalk = some (LocationWalk, bWalk) ∧
      g.TileToSpawnGridLocation Row Column bCenter Offset ZSpawn = some (LocationSpawn, bSpawn) ∧
      LocationWalk.X = (g.TileToGridLocation Row Column bCenter Offset Z).1.X ∧
      LocationWalk.Y = (g.TileToGridLocation Row Column bCenter Offset Z).1.Y ∧
      LocationSpawn.X = (g.TileToGridLocation Row Column bCenter Offset Z).1.X ∧
      LocationSpawn.Y = (g.TileToGridLocation Row Column bCenter Offset Z).1.Y ∧
      (bWalk = true → (g.TileToGridLocation Row Column bCenter Offset Z).2 = true) ∧
      (bSpawn = true → (g.TileToGridLocation Row Column bCenter Offset Z).2 = true) := by
  obtain ⟨Tile, bValid, hget⟩ := GetTileInfoAtPositionCopy_total g Row Column
  cases hV : g.IsValidTile Row Column
  · refine ⟨false, false, _, _, by simp [IsValidWalkTile, hV], by simp [IsValidSpawnTile, hV],
      by simp [TileToWalkGridLocation, IsValidWalkTile, hV]; rfl,
      by simp [TileToSpawnGridLocation, IsValidSpawnTile, hV]; rfl, ?_, ?_, ?_, ?_, ?_, ?_⟩
    · simp only [TileToGridLocation, GridLocationOf_X]
    · simp only [TileToGridLocation, GridLocationOf_Y]
    · simp only [TileToGridLocation, GridLocationOf_X]
    · simp only [TileToGridLocation, GridLocationOf_Y]
    · intro h; cases h
    · intro h; cases h
  · refine ⟨Tile.bCanWalkOn, Tile.bCanSpawnOn, _, _, by simp [IsValidWalkTile, hV, hget],
      by simp [IsValidSpawnTile, hV, hget],
      by simp [TileToWalkGridLocation, IsValidWalkTile, hV, hget]; rfl,
      by simp [TileToSpawnGridLocation, IsValidSpawnTile, hV, hget]; rfl, ?_, ?_, ?_, ?_, ?_, ?_⟩
    · simp only [TileToGridLocation, GridLocationOf_X]
    · simp only [TileToGridLocation, GridLocationOf_Y]
    · simp only [TileToGridLocation, GridLocationOf_X]
    · simp only [TileToGridLocation, GridLocationOf_Y]
    · intro _; exact hV
    · intro _; exact hV

end AGridManager

/-! ## Claiming a tile -/

namespace AGridManager

/-- The third component of `LocationToTile` is the range check of the first two. -/
theorem LocationToTile_valid (g : AGridManager) (Location : FVector) :
    (g.LocationToTile Location).2.2 =
      g.IsValidTile (g.LocationToTile Location).1 (g.LocationToTile Location).2.1 := rfl

/-- C15. When the actor's location resolves to an out-of-range tile, or the
store is not generated, `TakeTileSpace` returns false and the state after the
call is the state before it. -/
theorem TakeTileSpace_failure_atomic (g : AGridManager) (Actor : AActor) (ActorLocation : FVector)
    (bAffectWalkable : Bool)
    (h : ¬ (0 ≤ (g.LocationToTile ActorLocation).1 ∧
          (g.LocationToTile ActorLocation).1 < g.NumRows ∧
          0 ≤ (g.LocationToTile ActorLocation).2.1 ∧
          (g.LocationToTile ActorLocation).2.1 < g.NumColumns) ∨
      (g.TilesInfo.length : Int) ≠ g.NumRows * g.NumColumns) :
    g.TakeTileSpace Actor ActorLocation bAffectWalkable = some (false, g) := by
  by_cases hV : (g.LocationToTile ActorLocation).2.2 = true
  · have hne : (g.TilesInfo.length : Int) ≠ g.NumRows * g.NumColumns := by
      rcases h with h | h
      · rw [LocationToTile_valid, IsValidTile_iff] at hV
        exact absurd hV h
      · exact h
    have hget := GetTileInfoAtPositionCopy_invalid g (g.LocationToTile ActorLocation).1
      (g.LocationToTile ActorLocation).2.1 (Or.inl hne)
    simp [TakeTileSpace, hV, hget, FTileInfo.ofRowColumn]
  · simp [TakeTileSpace, hV]

/-- Witness of C15: the constructed 10x10 grid before generation. -/
theorem TakeTileSpace_failure_atomic_witness :
    (¬ (0 ≤ ((Constructed 10 10 [] []).LocationToTile ⟨250, 250, 0⟩).1 ∧
          ((Constructed 10 10 [] []).LocationToTile ⟨250, 250, 0⟩).1 <
            (Constructed 10 10 [] []).NumRows ∧
          0 ≤ ((Constructed 10 10 [] []).LocationToTile ⟨250, 250, 0⟩).2.1 ∧
          ((Constructed 10 10 [] []).LocationToTile ⟨250, 250, 0⟩).2.1 <
            (Constructed 10 10 [] []).NumColumns) ∨
      ((Constructed 10 10 [] []).TilesInfo.length : Int) ≠
        (Constructed 10 10 [] []).NumRows * (Constructed 10 10 [] []).NumColumns) ∧
    (Constructed 10 10 [] []).TakeTileSpace 7 ⟨250, 250, 0⟩ true =
      some (false, Constructed 10 10 [] []) :=
  ⟨Or.inr (by decide),
    TakeTileSpace_failure_atomic (Constructed 10 10 [] []) 7 ⟨250, 250, 0⟩ true
      (Or.inr (by decide))⟩

/-- Writing a cell through `Assign` keeps the cached positions of every cell. -/
theorem map_Position_set_Assign (Tiles : List FTileInfo) (n : Nat) (Tile TileInfoIn : FTileInfo)
    (h : Tiles[n]? = some Tile) :
    (Tiles.set n (Tile.Assign TileInfoIn)).map (fun t => t.Position) =
      Tiles.map (fun t => t.Position) := by
  apply List.ext_getElem?
  intro m
  simp only [List.getElem?_map, List.getElem?_set]
  by_cases hnm : n = m
  · subst hnm
    have hlt : n < Tiles.length := by
      by_contra hge
      rw [List.getElem?_eq_none (by omega)] at h
      cases h
    simp [hlt, h, FTileInfo.Assign]
  · simp [hnm]

/-- On an initialised square grid the setter succeeds, the written cell then
reads as the old entry assigned from `TileInfoIn`, every other position reads
as before, and dimensions and tile count are kept. -/
theorem SetTileInfoAtPosition_square_get (g : AGridManager) (Row Column : Int)
    (TileInfoIn : FTileInfo)
    (hsq : g.NumRows = g.NumColumns)
    (hinit : (g.TilesInfo.length : Int) = g.NumRows * g.NumColumns)
    (hr0 : 0 ≤ Row) (hr1 : Row < g.NumRows) (hc0 : 0 ≤ Column) (hc1 : Column < g.NumColumns) :
    ∃ Old g', g.TilesInfo[(Row * g.NumColumns + Column).toNat]? = some Old ∧
      g.SetTileInfoAtPosition Row Column TileInfoIn = some (true, g') ∧
      g' = { g with TilesInfo := g'.TilesInfo } ∧
      g'.NumRows = g.NumRows ∧ g'.NumColumns = g.NumColumns ∧
      (g'.TilesInfo.length : Int) = g.NumRows * g.NumColumns ∧
      (∀ r c : Int, 0 ≤ r → r < g.NumRows → 0 ≤ c → c < g.NumColumns →
        ∀ T, g.TilesInfo[(r * g.NumColumns + c).toNat]? = some T →
          g'.TilesInfo[(r * g.NumColumns + c).toNat]? =
            some (if r = Row ∧ c = Column then Old.Assign TileInfoIn else T)) ∧
      g'.GetTileInfoAtPositionCopy Row Column = some (Old.Assign TileInfoIn, true) ∧
      (∀ r c : Int, ¬ (r = Row ∧ c = Column) →
        g'.GetTileInfoAtPositionCopy r c = g.GetTileInfoAtPositionCopy r c) := by
  obtain ⟨Old, hOld, hset⟩ :=
    SetTileInfoAtPosition_square g Row Column TileInfoIn hsq hinit hr0 hr1 hc0 hc1
  have hlen : ((g.TilesInfo.set (Row * g.NumColumns + Column).toNat
      (Old.Assign TileInfoIn)).length : Int) = g.NumRows * g.NumColumns := by
    rw [List.length_set]; exact hinit
  have hcell : ∀ r c : Int, 0 ≤ r → r < g.NumRows → 0 ≤ c → c < g.NumColumns →
      ∀ T, g.TilesInfo[(r * g.NumColumns + c).toNat]? = some T →
        (g.TilesInfo.set (Row * g.NumColumns + Column).toNat
          (Old.Assign TileInfoIn))[(r * g.NumColumns + c).toNat]? =
          some (if r = Row ∧ c = Column then Old.Assign TileInfoIn else T) := by
    intro r c a0 a1 b0 b1 T hT
    exact getElem?_set_flatIndex g.TilesInfo g.NumColumns Row Column r c _ T hc0 hc1 b0 b1 hr0 a0 hT
  refine ⟨Old, { g with TilesInfo := (g.TilesInfo.set (Row * g.NumColumns + Column).toNat
      (Old.Assign TileInfoIn)) }, hOld, hset, rfl, rfl, rfl, hlen, hcell, ?_, ?_⟩
  · obtain ⟨New, hNew, hgetNew⟩ := GetTileInfoAtPositionCopy_inRange
      { g with TilesInfo := (g.TilesInfo.set (Row * g.NumColumns + Column).toNat
          (Old.Assign TileInfoIn)) } Row Column hlen hr0 hr1 hc0 hc1
    rw [hgetNew]
    have hNew2 := hcell Row Column hr0 hr1 hc0 hc1 Old hOld
    rw [if_pos ⟨rfl, rfl⟩] at hNew2
    have hNew3 : some New = some (Old.Assign TileInfoIn) := by
      rw [← hNew2]; exact hNew.symm
    cases hNew3
    rfl
  · intro r c hne
    by_cases hin : 0 ≤ r ∧ r < g.NumRows ∧ 0 ≤ c ∧ c < g.NumColumns
    · obtain ⟨a0, a1, b0, b1⟩ := hin
      obtain ⟨T, hT, hgetT⟩ := GetTileInfoAtPositionCopy_inRange g r c hinit a0 a1 b0 b1
      obtain ⟨T', hT', hgetT'⟩ := GetTileInfoAtPositionCopy_inRange
        { g with TilesInfo := (g.TilesInfo.set (Row * g.NumColumns + Column).toNat
            (Old.Assign TileInfoIn)) } r c hlen a0 a1 b0 b1
      rw [hgetT, hgetT']
      have hT2 := hcell r c a0 a1 b0 b1 T hT
      rw [if_neg hne] at hT2
      have : some T' = some T := by rw [← hT2]; exact hT'.symm
      cases this
      rfl
    · rw [GetTileInfoAtPositionCopy_invalid g r c (Or.inr hin)]
      exact GetTileInfoAtPositionCopy_invalid _ r c (Or.inr hin)

/-- C14. On a generated square grid whose tiles cache their own positions, for
every actor, every `bAffectWalkable` and every location that `LocationToTile`
resolves to the in-range tile `(r, c)`, `TakeTileSpace` returns true; afterwards
`GetTileInfoAtPositionCopy(r, c)` has `bCanSpawnOn = false`, the actor as
occupant, `bCanWalkOn = false` if `bAffectWalkable` and its previous value
otherwise, and position `(r, c)`; every other position reads as before;
nothing but the tile array differs in the new state, which is again a
generated square grid with cached positions. -/
theorem TakeTileSpace_square (g : AGridManager) (Actor : AActor) (ActorLocation : FVector)
    (bAffectWalkable : Bool) (r c : Int)
    (hsq : g.NumRows = g.NumColumns)
    (hinit : (g.TilesInfo.length : Int) = g.NumRows * g.NumColumns)
    (hpos : g.PositionInvariant)
    (hloc : g.LocationToTile ActorLocation = (r, c, true)) :
    ∃ Old g', g.GetTileInfoAtPositionCopy r c = some (Old, true) ∧
      g.TakeTileSpace Actor ActorLocation bAffectWalkable = some (true, g') ∧
      g'.GetTileInfoAtPositionCopy r c =
        some ({ Position := ⟨r, c⟩, bCanSpawnOn := false,
                bCanWalkOn := if bAffectWalkable then false else Old.bCanWalkOn,
                ActorOnTile := some Actor }, true) ∧
      (∀ r' c' : Int, ¬ (r' = r ∧ c' = c) →
        g'.GetTileInfoAtPositionCopy r' c' = g.GetTileInfoAtPositionCopy r' c') ∧
      g' = { g with TilesInfo := g'.TilesInfo } ∧
      g'.NumRows = g'.NumColumns ∧
      (g'.TilesInfo.length : Int) = g'.NumRows * g'.NumColumns ∧
      g'.PositionInvariant := by
  have h1 : (g.LocationToTile ActorLocation).1 = r := by rw [hloc]
  have h2 : (g.LocationToTile ActorLocation).2.1 = c := by rw [hloc]
  have h3 : (g.LocationToTile ActorLocation).2.2 = true := by rw [hloc]
  have hV : g.IsValidTile r c = true := by
    rw [LocationToTile_valid, h1, h2] at h3
    exact h3
  obtain ⟨hr0, hr1, hc0, hc1⟩ := (IsValidTile_iff g r c).1 hV
  obtain ⟨Old, hOld, hget⟩ := GetTileInfoAtPositionCopy_inRange g r c hinit hr0 hr1 hc0 hc1
  obtain ⟨Old2, hOld2, hOldPos⟩ := hpos r c hr0 hr1 hc0 hc1
  rw [hOld] at hOld2
  cases hOld2
  obtain ⟨Old3, g', hOld3, hset, hsame, hrows, hcols, hlen, hcell, hgetNew, hothers⟩ :=
    SetTileInfoAtPosition_square_get g r c
      { Old with
        bCanSpawnOn := false
        bCanWalkOn := if bAffectWalkable then false else Old.bCanWalkOn
        ActorOnTile := some Actor } hsq hinit hr0 hr1 hc0 hc1
  rw [hOld] at hOld3
  cases hOld3
  refine ⟨Old, g', hget, ?_, ?_, hothers, hsame, by rw [hrows, hcols]; exact hsq,
    by rw [hrows, hcols]; exact hlen, ?_⟩
  · simp only [TakeTileSpace, h1, h2, h3, hget, hOldPos]
    have hx : decide (r < 0) = false := by simpa using hr0
    have hy : decide (c < 0) = false := by simpa using hc0
    simp only [hx, hy]
    simpa [hOldPos] using hset
  · rw [hgetNew]
    simp [FTileInfo.Assign, hOldPos]
  · intro r' c' a0 a1 b0 b1
    rw [hrows] at a1
    rw [hcols] at b1
    obtain ⟨T, hT, hTpos⟩ := hpos r' c' a0 a1 b0 b1
    have hT2 := hcell r' c' a0 a1 b0 b1 T hT
    rw [hcols]
    refine ⟨_, hT2, ?_⟩
    by_cases hrc : r' = r ∧ c' = c
    · obtain ⟨e1, e2⟩ := hrc
      subst e1 e2
      simp [FTileInfo.Assign, hOldPos]
    · simp [hrc, hTpos]

/-- A store that `GenerateTileInfo` has just rebuilt caches the right positions. -/
theorem GenerateTileInfo_PositionInvariant (g : AGridManager)
    (hne : (g.TilesInfo.length : Int) ≠ g.NumRows * g.NumColumns) :
    g.GenerateTileInfo.PositionInvariant := by
  rw [GenerateTileInfo_of_not_initialized g hne]
  intro r c hr0 hr1 hc0 hc1
  exact ⟨_, GenerateTileInfoLoop_getElem? g.NumRows g.NumColumns r c hr0 hr1 hc0 hc1, rfl⟩

set_option maxRecDepth 100000 in
/-- Witness of C14: on the fresh 10x10 grid, actor 1 at world location
(250, 250), inside tile (2, 2), claims the tile with `bAffectWalkable = true`;
then actor 2 at the same location claims it with `bAffectWalkable = false`.
Both calls return true and tile (2, 2) ends non-walkable, non-spawnable and
occupied by actor 2. -/
theorem TakeTileSpace_square_witness :
    (FreshGrid10x10.NumRows = FreshGrid10x10.NumColumns ∧
      (FreshGrid10x10.TilesInfo.length : Int) =
        FreshGrid10x10.NumRows * FreshGrid10x10.NumColumns ∧
      FreshGrid10x10.PositionInvariant ∧
      FreshGrid10x10.LocationToTile ⟨250, 250, 0⟩ = (2, 2, true)) ∧
    ∃ g1 g2, FreshGrid10x10.TakeTileSpace 1 ⟨250, 250, 0⟩ true = some (true, g1) ∧
      g1.GetTileInfoAtPositionCopy 2 2 = some (⟨⟨2, 2⟩, false, false, some 1⟩, true) ∧
      g1.TakeTileSpace 2 ⟨250, 250, 0⟩ false = some (true, g2) ∧
      g2.GetTileInfoAtPositionCopy 2 2 = some (⟨⟨2, 2⟩, false, false, some 2⟩, true) := by
  have hsq : FreshGrid10x10.NumRows = FreshGrid10x10.NumColumns := by decide
  have hinit : (FreshGrid10x10.TilesInfo.length : Int) =
      FreshGrid10x10.NumRows * FreshGrid10x10.NumColumns := by decide
  have hpos : FreshGrid10x10.PositionInvariant :=
    GenerateTileInfo_PositionInvariant (Constructed 10 10 [] []) (by decide)
  have hloc : FreshGrid10x10.LocationToTile ⟨250, 250, 0⟩ = (2, 2, true) := by
    simp [LocationToTile, FreshGrid10x10, GenerateTileInfo, Constructed, IsGridInfoInitialized,
      GetGridWidth, GetGridHeight, IsValidTile]
    norm_num [Int.floor_eq_iff]
  obtain ⟨Old1, g1, _, htake1, hget1, _, hsame1, hsq1, hinit1, hpos1⟩ :=
    TakeTileSpace_square FreshGrid10x10 1 ⟨250, 250, 0⟩ true 2 2 hsq hinit hpos hloc
  have hloc1 : g1.LocationToTile ⟨250, 250, 0⟩ = (2, 2, true) := by
    rw [hsame1]; exact hloc
  obtain ⟨Old2, g2, hold2, htake2, hget2, _, _, _, _, _⟩ :=
    TakeTileSpace_square g1 2 ⟨250, 250, 0⟩ false 2 2 hsq1 hinit1 hpos1 hloc1
  rw [hget1] at hold2
  cases hold2
  exact ⟨⟨hsq, hinit, hpos, hloc⟩, g1, g2, htake1, hget1, htake2, hget2⟩

end AGridManager

/-! ## Tiles relative to a tile -/

namespace AGridManager

/-- Without rotation, the target computed by `GetTileInReferenceToTile` from an
in-range base tile is the base tile shifted by the offsets. -/
theorem LocationToTile_offset_center (g : AGridManager) (InRow InColumn RowOffset ColOffset : Int)
    (UninitializedZ : ℚ) (hts : 0 < g.TileSize) (hr : 0 < g.NumRows) (hc : 0 < g.NumColumns) :
    g.LocationToTile
        ((⟨g.TileSize * (RowOffset : ℚ), g.TileSize * (ColOffset : ℚ), 0⟩ : FVector) +
          (g.TileToGridLocation InRow InColumn true ⟨0, 0, 0⟩ UninitializedZ).1) =
      (InRow + RowOffset, InColumn + ColOffset,
        g.IsValidTile (InRow + RowOffset) (InColumn + ColOffset)) := by
  rw [LocationToTile_eq g _ hts hr hc]
  have hx : ⌊(((⟨g.TileSize * (RowOffset : ℚ), g.TileSize * (ColOffset : ℚ), 0⟩ : FVector) +
      (g.TileToGridLocation InRow InColumn true ⟨0, 0, 0⟩ UninitializedZ).1).X -
      g.ActorLocation.X) / g.TileSize⌋ = InRow + RowOffset := by
    apply floor_half_tile _ _ _ hts
    simp only [FVector_add_X, TileToGridLocation, GridLocationOf_X, if_true]
    push_cast
    ring
  have hy : ⌊(((⟨g.TileSize * (RowOffset : ℚ), g.TileSize * (ColOffset : ℚ), 0⟩ : FVector) +
      (g.TileToGridLocation InRow InColumn true ⟨0, 0, 0⟩ UninitializedZ).1).Y -
      g.ActorLocation.Y) / g.TileSize⌋ = InColumn + ColOffset := by
    apply floor_half_tile _ _ _ hts
    simp only [FVector_add_Y, TileToGridLocation, GridLocationOf_Y, if_true]
    push_cast
    ring
  rw [hx, hy]

/-- C19. Without rotation and in exact arithmetic, on a generated store with
`TileSize > 0`, `GetTileInReferenceToTile` returns; it succeeds exactly when both
`(InRow, InColumn)` and `(InRow + RowOffset, InColumn + ColOffset)` are in range;
on success `TileInfo` is what `GetTileInfoAtPositionCopy` returns for the target
and `OutLocation` has the `X` and `Y` of the centre of the target tile, so with
zero offsets the base tile itself is returned; on failure `OutLocation` and
`TileInfo` keep the values passed in. -/
theorem GetTileInReferenceToTile_no_rotation (g : AGridManager)
    (InRow InColumn RowOffset ColOffset : Int) (OutLocation : FVector) (TileInfo : FTileInfo)
    (RotateVector : FVector → FVector) (Z1 Z2 : ℚ)
    (hinit : (g.TilesInfo.length : Int) = g.NumRows * g.NumColumns)
    (hts : 0 < g.TileSize) :
    ∃ bResult OutLocation' TileInfo',
      g.GetTileInReferenceToTile InRow InColumn RowOffset ColOffset OutLocation TileInfo false
          RotateVector Z1 Z2 = some (bResult, OutLocation', TileInfo') ∧
      (bResult = true ↔
        ((0 ≤ InRow ∧ InRow < g.NumRows ∧ 0 ≤ InColumn ∧ InColumn < g.NumColumns) ∧
          (0 ≤ InRow + RowOffset ∧ InRow + RowOffset < g.NumRows ∧
            0 ≤ InColumn + ColOffset ∧ InColumn + ColOffset < g.NumColumns))) ∧
      (bResult = true →
        g.GetTileInfoAtPositionCopy (InRow + RowOffset) (InColumn + ColOffset) =
            some (TileInfo', true) ∧
          OutLocation'.X =
            g.ActorLocation.X + ((InRow + RowOffset : Int) : ℚ) * g.TileSize + g.TileSize / 2 ∧
          OutLocation'.Y =
            g.ActorLocation.Y + ((InColumn + ColOffset : Int) : ℚ) * g.TileSize + g.TileSize / 2 ∧
          (RowOffset = 0 → ColOffset = 0 →
            g.GetTileInfoAtPositionCopy InRow InColumn = some (TileInfo', true))) ∧
      (bResult = false → OutLocation' = OutLocation ∧ TileInfo' = TileInfo) := by
  by_cases hbase : 0 ≤ InRow ∧ InRow < g.NumRows ∧ 0 ≤ InColumn ∧ InColumn < g.NumColumns
  · have hV : g.IsValidTile InRow InColumn = true := (IsValidTile_iff g InRow InColumn).2 hbase
    have hr : 0 < g.NumRows := by omega
    have hc : 0 < g.NumColumns := by omega
    have htarget := LocationToTile_offset_center g InRow InColumn RowOffset ColOffset Z1 hts hr hc
    by_cases htgt : 0 ≤ InRow + RowOffset ∧ InRow + RowOffset < g.NumRows ∧
        0 ≤ InColumn + ColOffset ∧ InColumn + ColOffset < g.NumColumns
    · have hV2 : g.IsValidTile (InRow + RowOffset) (InColumn + ColOffset) = true :=
        (IsValidTile_iff g _ _).2 htgt
      obtain ⟨Tile, _, hget⟩ := GetTileInfoAtPositionCopy_inRange g (InRow + RowOffset)
        (InColumn + ColOffset) hinit htgt.1 htgt.2.1 htgt.2.2.1 htgt.2.2.2
      refine ⟨true, (g.TileToGridLocation (InRow + RowOffset) (InColumn + ColOffset) true
        ⟨0, 0, 0⟩ Z2).1, Tile, ?_, ?_, ?_, ?_⟩
      · have hb : (g.TileToGridLocation InRow InColumn true ⟨0, 0, 0⟩ Z1).2 = true := hV
        simp only [GetTileInReferenceToTile, hb, Bool.not_true, Bool.false_eq_true, if_false,
          htarget, hV2, GetTileInfoAtPositionWithLocation, hget]
      · simp only [true_iff]; exact ⟨hbase, htgt⟩
      · intro _
        refine ⟨hget, ?_, ?_, ?_⟩
        · simp only [TileToGridLocation, GridLocationOf_X, if_true]; ring
        · simp only [TileToGridLocation, GridLocationOf_Y, if_true]; ring
        · intro h1 h2
          subst h1 h2
          simpa using hget
      · intro h; cases h
    · have hV2 : g.IsValidTile (InRow + RowOffset) (InColumn + ColOffset) = false := by
        rw [← Bool.not_eq_true, IsValidTile_iff]; exact htgt
      refine ⟨false, OutLocation, TileInfo, ?_, ?_, ?_, ?_⟩
      · have hb : (g.TileToGridLocation InRow InColumn true ⟨0, 0, 0⟩ Z1).2 = true := hV
        simp only [GetTileInReferenceToTile, hb, Bool.not_true, Bool.false_eq_true, if_false,
          htarget, hV2, Bool.not_false, if_true]
      · constructor
        · intro h; cases h
        · rintro ⟨_, h⟩; exact absurd h htgt
      · intro h; cases h
      · intro _; exact ⟨rfl, rfl⟩
  · have hV : g.IsValidTile InRow InColumn = false := by
      rw [← Bool.not_eq_true, IsValidTile_iff]; exact hbase
    refine ⟨false, OutLocation, TileInfo, ?_, ?_, ?_, ?_⟩
    · have hb : (g.TileToGridLocation InRow InColumn true ⟨0, 0, 0⟩ Z1).2 = false := hV
      simp only [GetTileInReferenceToTile, hb, Bool.not_false, if_true]
    · constructor
      · intro h; cases h
      · rintro ⟨h, _⟩; exact absurd h hbase
    · intro h; cases h
    · intro _; exact ⟨rfl, rfl⟩

end AGridManager

namespace AGridManager

/-- Witness of C19: on the generated 2x3 grid, one row down and one column
right of tile (0, 1) is tile (1, 2). -/
theorem GetTileInReferenceToTile_no_rotation_witness :
    ((FreshGrid2x3.TilesInfo.length : Int) = FreshGrid2x3.NumRows * FreshGrid2x3.NumColumns ∧
      0 < FreshGrid2x3.TileSize) ∧
    ∃ bResult OutLocation' TileInfo',
      FreshGrid2x3.GetTileInReferenceToTile 0 1 1 1 ⟨0, 0, 0⟩ FTileInfo.default false
          (fun v => v) 0 0 = some (bResult, OutLocation', TileInfo') ∧
      (bResult = true ↔
        (((0 : Int) ≤ 0 ∧ 0 < FreshGrid2x3.NumRows ∧ (0 : Int) ≤ 1 ∧
            1 < FreshGrid2x3.NumColumns) ∧
          ((0 : Int) ≤ 0 + 1 ∧ 0 + 1 < FreshGrid2x3.NumRows ∧
            (0 : Int) ≤ 1 + 1 ∧ 1 + 1 < FreshGrid2x3.NumColumns))) ∧
      (bResult = true →
        FreshGrid2x3.GetTileInfoAtPositionCopy (0 + 1) (1 + 1) = some (TileInfo', true) ∧
          OutLocation'.X =
            FreshGrid2x3.ActorLocation.X + ((0 + 1 : Int) : ℚ) * FreshGrid2x3.TileSize +
              FreshGrid2x3.TileSize / 2 ∧
          OutLocation'.Y =
            FreshGrid2x3.ActorLocation.Y + ((1 + 1 : Int) : ℚ) * FreshGrid2x3.TileSize +
              FreshGrid2x3.TileSize / 2 ∧
          ((1 : Int) = 0 → (1 : Int) = 0 →
            FreshGrid2x3.GetTileInfoAtPositionCopy 0 1 = some (TileInfo', true))) ∧
      (bResult = false → OutLocation' = ⟨0, 0, 0⟩ ∧ TileInfo' = FTileInfo.default) :=
  ⟨⟨by decide, by simp [FreshGrid2x3, GenerateTileInfo, Constructed, IsGridInfoInitialized]⟩,
    GetTileInReferenceToTile_no_rotation FreshGrid2x3 0 1 1 1 ⟨0, 0, 0⟩ FTileInfo.default
      (fun v => v) 0 0 (by decide)
      (by simp [FreshGrid2x3, GenerateTileInfo, Constructed, IsGridInfoInitialized])⟩

/-! ## The position invariant -/

theorem SetTileInfoAtPosition_keeps_positions (g g' : AGridManager) (Row Column : Int)
    (TileInfoIn : FTileInfo) (bResult : Bool)
    (h : g.SetTileInfoAtPosition Row Column TileInfoIn = some (bResult, g')) :
    g'.NumRows = g.NumRows ∧ g'.NumColumns = g.NumColumns ∧
      g'.TilesInfo.map (fun t => t.Position) = g.TilesInfo.map (fun t => t.Position) := by
  unfold SetTileInfoAtPosition at h
  split at h
  · cases h; exact ⟨rfl, rfl, rfl⟩
  · split at h
    · cases h; exact ⟨rfl, rfl, rfl⟩
    · cases hread : TArrayRead g.TilesInfo (Row * g.NumRows + Column) with
      | none => simp [hread] at h
      | some Tile =>
        simp only [hread, Option.some.injEq, Prod.mk.injEq] at h
        obtain ⟨_, rfl⟩ := h
        refine ⟨rfl, rfl, ?_⟩
        apply map_Position_set_Assign
        unfold TArrayRead at hread
        split at hread
        · exact hread
        · cases hread

theorem SetTileInfoAtIndex_keeps_positions (g g' : AGridManager) (Index : Int)
    (TileInfoIn : FTileInfo) (bResult : Bool)
    (h : g.SetTileInfoAtIndex Index TileInfoIn = some (bResult, g')) :
    g'.NumRows = g.NumRows ∧ g'.NumColumns = g.NumColumns ∧
      g'.TilesInfo.map (fun t => t.Position) = g.TilesInfo.map (fun t => t.Position) := by
  unfold SetTileInfoAtIndex at h
  split at h
  · cases h; exact ⟨rfl, rfl, rfl⟩
  · split at h
    · cases h; exact ⟨rfl, rfl, rfl⟩
    · cases hread : TArrayRead g.TilesInfo Index with
      | none => simp [hread] at h
      | some Tile =>
        simp only [hread, Option.some.injEq, Prod.mk.injEq] at h
        obtain ⟨_, rfl⟩ := h
        refine ⟨rfl, rfl, ?_⟩
        apply map_Position_set_Assign
        unfold TArrayRead at hread
        split at hread
        · exact hread
        · cases hread

theorem SetTileInfoForEach_keeps_positions (TileInfo : FTileInfo) (Mods : List FTileMod)
    (g g' : AGridManager) (h : SetTileInfoForEach TileInfo Mods g = some g') :
    g'.NumRows = g.NumRows ∧ g'.NumColumns = g.NumColumns ∧
      g'.NoWalkingStartingTiles = g.NoWalkingStartingTiles ∧
      g'.TilesInfo.map (fun t => t.Position) = g.TilesInfo.map (fun t => t.Position) := by
  induction Mods generalizing g with
  | nil =>
    simp only [SetTileInfoForEach, Option.some.injEq] at h
    subst h
    exact ⟨rfl, rfl, rfl, rfl⟩
  | cons TileMod Rest ih =>
    unfold SetTileInfoForEach at h
    cases hset : g.SetTileInfoAtPosition TileMod.Row TileMod.Column TileInfo with
    | none => simp [hset] at h
    | some r =>
      obtain ⟨b, g1⟩ := r
      simp only [hset] at h
      obtain ⟨a1, a2, a3⟩ := SetTileInfoAtPosition_keeps_positions g g1 _ _ _ b hset
      obtain ⟨b1, b2, b3, b4⟩ := ih g1 h
      refine ⟨by rw [b1, a1], by rw [b2, a2], ?_, by rw [b4, a3]⟩
      rw [b3]
      unfold SetTileInfoAtPosition at hset
      split at hset
      · cases hset; rfl
      · split at hset
        · cases hset; rfl
        · cases hread : TArrayRead g.TilesInfo (TileMod.Row * g.NumRows + TileMod.Column) with
          | none => simp [hread] at hset
          | some Tile =>
            simp only [hread, Option.some.injEq, Prod.mk.injEq] at hset
            obtain ⟨_, rfl⟩ := hset
            rfl

theorem InitializeStartingTilesModifiers_keeps_positions (g g' : AGridManager)
    (h : g.InitializeStartingTilesModifiers = some g') :
    g'.NumRows = g.NumRows ∧ g'.NumColumns = g.NumColumns ∧
      g'.TilesInfo.map (fun t => t.Position) = g.TilesInfo.map (fun t => t.Position) := by
  unfold InitializeStartingTilesModifiers at h
  split at h
  · cases h; exact ⟨rfl, rfl, rfl⟩
  · cases h1 : SetTileInfoForEach { FTileInfo.default with bCanSpawnOn := false }
        g.NoSpawningStartingTiles g with
    | none => simp [h1] at h
    | some g1 =>
      simp only [h1] at h
      cases h2 : SetTileInfoForEach { FTileInfo.default with bCanWalkOn := false }
          g1.NoWalkingStartingTiles g1 with
      | none => simp [h2] at h
      | some g2 =>
        simp only [h2, Option.some.injEq] at h
        subst h
        obtain ⟨a1, a2, _, a4⟩ := SetTileInfoForEach_keeps_positions _ _ g g1 h1
        obtain ⟨b1, b2, _, b4⟩ := SetTileInfoForEach_keeps_positions _ _ g1 g2 h2
        exact ⟨by simp only []; rw [b1, a1], by simp only []; rw [b2, a2],
          by simp only []; rw [b4, a4]⟩

theorem TakeTileSpace_keeps_positions (g g' : AGridManager) (Actor : AActor)
    (ActorLocation : FVector) (bAffectWalkable bResult : Bool)
    (h : g.TakeTileSpace Actor ActorLocation bAffectWalkable = some (bResult, g')) :
    g'.NumRows = g.NumRows ∧ g'.NumColumns = g.NumColumns ∧
      g'.TilesInfo.map (fun t => t.Position) = g.TilesInfo.map (fun t => t.Position) := by
  unfold TakeTileSpace at h
  simp only at h
  split at h
  · cases h; exact ⟨rfl, rfl, rfl⟩
  · split at h
    · cases h
    · split at h
      · cases h; exact ⟨rfl, rfl, rfl⟩
      · exact SetTileInfoAtPosition_keeps_positions g g' _ _ _ bResult h

theorem Mutation_keeps_positions (g g' : AGridManager) (h : Mutation g g') :
    g'.NumRows = g.NumRows ∧ g'.NumColumns = g.NumColumns ∧
      g'.TilesInfo.map (fun t => t.Position) = g.TilesInfo.map (fun t => t.Position) := by
  cases h with
  | modifiers h => exact InitializeStartingTilesModifiers_keeps_positions g g' h
  | setAtPosition Row Column TileInfoIn bResult h =>
    exact SetTileInfoAtPosition_keeps_positions g g' Row Column TileInfoIn bResult h
  | setAtIndex Index TileInfoIn bResult h =>
    exact SetTileInfoAtIndex_keeps_positions g g' Index TileInfoIn bResult h
  | takeTileSpace Actor ActorLocation bAffectWalkable bResult h =>
    exact TakeTileSpace_keeps_positions g g' Actor ActorLocation bAffectWalkable bResult h

end AGridManager

namespace AGridManager

/-- Every state reachable from a store without tiles keeps the dimensions, and
its cached positions are either none at all or those of a rebuilt store. -/
theorem Reachable_positions (g0 g : AGridManager) (hempty : g0.TilesInfo = [])
    (hreach : Reachable g0 g) :
    g.NumRows = g0.NumRows ∧ g.NumColumns = g0.NumColumns ∧
      (g.TilesInfo.map (fun t => t.Position) = [] ∨
        g.TilesInfo.map (fun t => t.Position) =
          (GenerateTileInfoLoop g0.NumRows g0.NumColumns).map (fun t => t.Position)) := by
  induction hreach with
  | start => exact ⟨rfl, rfl, Or.inl (by rw [hempty]; rfl)⟩
  | @generate g _ ih =>
    obtain ⟨h1, h2, h3⟩ := ih
    by_cases hinit : (g.TilesInfo.length : Int) = g.NumRows * g.NumColumns
    · rw [GenerateTileInfo_of_initialized g hinit]
      exact ⟨h1, h2, h3⟩
    · rw [GenerateTileInfo_of_not_initialized g hinit]
      exact ⟨h1, h2, Or.inr (by simp only []; rw [h1, h2])⟩
  | @mutate g g' _ hmut ih =>
    obtain ⟨h1, h2, h3⟩ := ih
    obtain ⟨m1, m2, m3⟩ := Mutation_keeps_positions g g' hmut
    exact ⟨by rw [m1, h1], by rw [m2, h2], by rw [m3]; exact h3⟩

/-- C20. With a fixed configuration, in every state reachable from the store
without tiles by any sequence of `GenerateTileInfo`,
`InitializeStartingTilesModifiers`, `SetTileInfoAtPosition`,
`SetTileInfoAtIndex` and `TakeTileSpace` calls, the dimensions are those of the
start, and whenever the tile count equals `NumRows * NumColumns` the tile at
flat index `r * NumColumns + c` exists and has position `(r, c)` for every
in-range `(r, c)`; and no operation other than `GenerateTileInfo` changes the
number of tiles or the position cached in any tile. -/
theorem PositionInvariant_of_Reachable (g0 g : AGridManager) (hempty : g0.TilesInfo = [])
    (hreach : Reachable g0 g) :
    (g.NumRows = g0.NumRows ∧ g.NumColumns = g0.NumColumns) ∧
    ((g.TilesInfo.length : Int) = g.NumRows * g.NumColumns →
      ∀ r c : Int, 0 ≤ r → r < g.NumRows → 0 ≤ c → c < g.NumColumns →
        ∃ Tile, g.TilesInfo[(r * g.NumColumns + c).toNat]? = some Tile ∧
          Tile.Position = ⟨r, c⟩) ∧
    (∀ g', Mutation g g' →
      g'.TilesInfo.length = g.TilesInfo.length ∧
      ∀ n : Nat, (g'.TilesInfo[n]?).map (fun t => t.Position) =
        (g.TilesInfo[n]?).map (fun t => t.Position)) := by
  obtain ⟨h1, h2, h3⟩ := Reachable_positions g0 g hempty hreach
  refine ⟨⟨h1, h2⟩, ?_, ?_⟩
  · intro hinit r c hr0 hr1 hc0 hc1
    have hfresh := GenerateTileInfoLoop_getElem? g.NumRows g.NumColumns r c hr0 hr1 hc0 hc1
    rcases h3 with h3 | h3
    · exfalso
      have hlen : g.TilesInfo.length = 0 := by
        have := congrArg List.length h3
        simpa using this
      have hb := flatIndex_bounds hr0 hr1 hc0 hc1
      rw [hlen] at hinit
      omega
    · have hn := congrArg (fun l => l[(r * g.NumColumns + c).toNat]?) h3
      simp only [List.getElem?_map] at hn
      rw [← h1, ← h2, hfresh] at hn
      cases hT : g.TilesInfo[(r * g.NumColumns + c).toNat]? with
      | none => rw [hT] at hn; cases hn
      | some Tile =>
        rw [hT] at hn
        exact ⟨Tile, rfl, Option.some.inj hn⟩
  · intro g' hmut
    obtain ⟨_, _, m3⟩ := Mutation_keeps_positions g g' hmut
    constructor
    · have := congrArg List.length m3
      simpa using this
    · intro n
      have hn := congrArg (fun l => l[n]?) m3
      simpa only [List.getElem?_map] using hn

/-- Witness of C20: the 2x3 grid, generated and then written at position (1, 0)
(a write that lands on the entry of another cell), still caches position
`(r, c)` at flat index `r * NumColumns + c`. -/
theorem PositionInvariant_of_Reachable_witness :
    ((Constructed 2 3 [] []).TilesInfo = [] ∧
      ∃ g, Reachable (Constructed 2 3 [] []) g ∧
        FreshGrid2x3.SetTileInfoAtPosition 1 0 ⟨⟨-1, -1⟩, false, false, some 7⟩ = some (true, g) ∧
        (g.TilesInfo.length : Int) = g.NumRows * g.NumColumns ∧
        ∀ r c : Int, 0 ≤ r → r < g.NumRows → 0 ≤ c → c < g.NumColumns →
          ∃ Tile, g.TilesInfo[(r * g.NumColumns + c).toNat]? = some Tile ∧
            Tile.Position = ⟨r, c⟩) := by
  have hset : ∃ g, FreshGrid2x3.SetTileInfoAtPosition 1 0 ⟨⟨-1, -1⟩, false, false, some 7⟩ =
      some (true, g) ∧ (g.TilesInfo.length : Int) = g.NumRows * g.NumColumns := by
    exact ⟨{ FreshGrid2x3 with
      TilesInfo := (FreshGrid2x3.TilesInfo.set 2 ⟨⟨0, 2⟩, false, false, some 7⟩) }, rfl, by decide⟩
  obtain ⟨g, hg, hlen⟩ := hset
  have hreach : Reachable (Constructed 2 3 [] []) g :=
    Reachable.mutate (Reachable.generate Reachable.start)
      (Mutation.setAtPosition 1 0 ⟨⟨-1, -1⟩, false, false, some 7⟩ true hg)
  exact ⟨rfl, g, hreach, hg, hlen,
    (PositionInvariant_of_Reachable (Constructed 2 3 [] []) g rfl hreach).2.1 hlen⟩

end AGridManager

/-! ## The world-to-tile formula and the two flat indices -/

namespace AGridManager

/-- C21 (counterexample). There is no grid with `NumRows ≠ NumColumns`,
positive dimensions and positive tile size, and no location, at which the row
and column computed by `LocationToTile` differ from
`(floor((loc.X - origin.X) / TileSize), floor((loc.Y - origin.Y) / TileSize))`. -/
theorem LocationToTile_never_diverges :
    ¬ ∃ (g : AGridManager) (Location : FVector),
      g.NumRows ≠ g.NumColumns ∧ 0 < g.NumRows ∧ 0 < g.NumColumns ∧ 0 < g.TileSize ∧
      ((g.LocationToTile Location).1, (g.LocationToTile Location).2.1) ≠
        (⌊(Location.X - g.ActorLocation.X) / g.TileSize⌋,
          ⌊(Location.Y - g.ActorLocation.Y) / g.TileSize⌋) := by
  rintro ⟨g, Location, _, hr, hc, hts, hne⟩
  apply hne
  rw [LocationToTile_eq g Location hts hr hc]

/-- C21 (amended). In exact arithmetic, for every grid with positive dimensions
and positive tile size, square or not, and every location, `LocationToTile`
computes `RowOut = floor((loc.X - origin.X) / TileSize)` and
`ColumnOut = floor((loc.Y - origin.Y) / TileSize)`: the grid extent it divides
by and the count it multiplies by belong to the same axis and cancel. -/
theorem LocationToTile_direct_formula (g : AGridManager) (Location : FVector)
    (hr : 0 < g.NumRows) (hc : 0 < g.NumColumns) (hts : 0 < g.TileSize) :
    (g.LocationToTile Location).1 = ⌊(Location.X - g.ActorLocation.X) / g.TileSize⌋ ∧
    (g.LocationToTile Location).2.1 = ⌊(Location.Y - g.ActorLocation.Y) / g.TileSize⌋ := by
  rw [LocationToTile_eq g Location hts hr hc]
  exact ⟨rfl, rfl⟩

/-- Witness of C21 (amended): a location of the 2x3 grid of tile size 100. -/
theorem LocationToTile_direct_formula_witness :
    (0 < (Constructed 2 3 [] []).NumRows ∧ 0 < (Constructed 2 3 [] []).NumColumns ∧
      0 < (Constructed 2 3 [] []).TileSize) ∧
    ((Constructed 2 3 [] []).LocationToTile ⟨150, 250, 0⟩).1 =
      ⌊((⟨150, 250, 0⟩ : FVector).X - (Constructed 2 3 [] []).ActorLocation.X) /
        (Constructed 2 3 [] []).TileSize⌋ ∧
    ((Constructed 2 3 [] []).LocationToTile ⟨150, 250, 0⟩).2.1 =
      ⌊((⟨150, 250, 0⟩ : FVector).Y - (Constructed 2 3 [] []).ActorLocation.Y) /
        (Constructed 2 3 [] []).TileSize⌋ :=
  ⟨⟨by decide, by decide, by simp [Constructed]⟩,
    LocationToTile_direct_formula (Constructed 2 3 [] []) ⟨150, 250, 0⟩ (by decide) (by decide)
      (by simp [Constructed])⟩

/-- The getter indexes the array with `GetTileInfoAtPositionCopyIndex`. -/
theorem GetTileInfoAtPositionCopy_uses_index (g : AGridManager) (Row Column : Int) :
    g.GetTileInfoAtPositionCopy Row Column =
      if !g.IsGridInfoInitialized then some (FTileInfo.ofRowColumn (-1) (-1), false)
      else if !g.IsValidTile Row Column then some (FTileInfo.ofRowColumn (-1) (-1), false)
      else
        match TArrayRead g.TilesInfo (g.GetTileInfoAtPositionCopyIndex Row Column) with
        | none => none
        | some Tile => some (Tile, true) := rfl

/-- The setter indexes the array with `SetTileInfoAtPositionIndex`. -/
theorem SetTileInfoAtPosition_uses_index (g : AGridManager) (Row Column : Int)
    (TileInfoIn : FTileInfo) :
    g.SetTileInfoAtPosition Row Column TileInfoIn =
      if !g.IsGridInfoInitialized then some (false, g)
      else if !g.IsValidTile Row Column then some (false, g)
      else
        match TArrayRead g.TilesInfo (g.SetTileInfoAtPositionIndex Row Column) with
        | none => none
        | some Tile =>
          some (true,
            { g with
              TilesInfo := (g.TilesInfo.set (g.SetTileInfoAtPositionIndex Row Column).toNat
                (Tile.Assign TileInfoIn)) }) := rfl

/-- The two indices agree on every in-range position exactly when the grid is
square or has a single row. -/
theorem index_agreement_iff (g : AGridManager) (hr : 0 < g.NumRows) (hc : 0 < g.NumColumns) :
    (∀ Row Column : Int, 0 ≤ Row → Row < g.NumRows → 0 ≤ Column → Column < g.NumColumns →
        g.SetTileInfoAtPositionIndex Row Column = g.GetTileInfoAtPositionCopyIndex Row Column) ↔
      (g.NumRows = g.NumColumns ∨ g.NumRows = 1) := by
  constructor
  · intro h
    by_cases h1 : g.NumRows = 1
    · exact Or.inr h1
    · have := h 1 0 (by decide) (by omega) (le_refl 0) hc
      simp only [SetTileInfoAtPositionIndex, GetTileInfoAtPositionCopyIndex] at this
      left
      omega
  · rintro (h | h) Row Column hr0 hr1 hc0 hc1
    · simp only [SetTileInfoAtPositionIndex, GetTileInfoAtPositionCopyIndex, h]
    · have : Row = 0 := by omega
      subst this
      simp [SetTileInfoAtPositionIndex, GetTileInfoAtPositionCopyIndex]

/-- C22 (counterexample). On the 1x3 configuration (one row, three columns) the
index used by `SetTileInfoAtPosition` equals the index used by
`GetTileInfoAtPositionCopy` for every in-range position, although
`NumRows ≠ NumColumns`: the only in-range row is 0, and `0 * NumRows + Column =
0 * NumColumns + Column`. -/
theorem index_agreement_on_1x3 :
    0 < (Constructed 1 3 [] []).NumRows ∧ 0 < (Constructed 1 3 [] []).NumColumns ∧
    ¬ ((∀ Row Column : Int, 0 ≤ Row → Row < (Constructed 1 3 [] []).NumRows →
          0 ≤ Column → Column < (Constructed 1 3 [] []).NumColumns →
          (Constructed 1 3 [] []).SetTileInfoAtPositionIndex Row Column =
            (Constructed 1 3 [] []).GetTileInfoAtPositionCopyIndex Row Column) ↔
        (Constructed 1 3 [] []).NumRows = (Constructed 1 3 [] []).NumColumns) := by
  refine ⟨by decide, by decide, ?_⟩
  intro h
  have hsq : (Constructed 1 3 [] []).NumRows = (Constructed 1 3 [] []).NumColumns :=
    h.1 ((index_agreement_iff (Constructed 1 3 [] []) (by decide) (by decide)).2 (Or.inr rfl))
  exact absurd hsq (by decide)

/-- C22 (amended). For every configuration with `NumRows > 0` and
`NumColumns > 0`, the index used by `SetTileInfoAtPosition`
(`Row * NumRows + Column`) equals the index used by `GetTileInfoAtPositionCopy`
(`Row * NumColumns + Column`) for every in-range `(Row, Column)` if and only if
`NumRows = NumColumns` or `NumRows = 1`. -/
theorem index_agreement_iff_square_or_single_row (g : AGridManager)
    (hr : 0 < g.NumRows) (hc : 0 < g.NumColumns) :
    (∀ Row Column : Int, 0 ≤ Row → Row < g.NumRows → 0 ≤ Column → Column < g.NumColumns →
        g.SetTileInfoAtPositionIndex Row Column = g.GetTileInfoAtPositionCopyIndex Row Column) ↔
      (g.NumRows = g.NumColumns ∨ g.NumRows = 1) :=
  index_agreement_iff g hr hc

/-- Witness of C22 (amended): on the 2x3 configuration the two indices differ at
some in-range position, here (1, 0), as the grid is neither square nor a single
row. -/
theorem index_agreement_iff_square_or_single_row_witness :
    (0 < (Constructed 2 3 [] []).NumRows ∧ 0 < (Constructed 2 3 [] []).NumColumns) ∧
    ((∀ Row Column : Int, 0 ≤ Row → Row < (Constructed 2 3 [] []).NumRows →
          0 ≤ Column → Column < (Constructed 2 3 [] []).NumColumns →
          (Constructed 2 3 [] []).SetTileInfoAtPositionIndex Row Column =
            (Constructed 2 3 [] []).GetTileInfoAtPositionCopyIndex Row Column) ↔
        ((Constructed 2 3 [] []).NumRows = (Constructed 2 3 [] []).NumColumns ∨
          (Constructed 2 3 [] []).NumRows = 1)) ∧
    (Constructed 2 3 [] []).SetTileInfoAtPositionIndex 1 0 = 2 ∧
    (Constructed 2 3 [] []).GetTileInfoAtPositionCopyIndex 1 0 = 3 :=
  ⟨by decide,
    index_agreement_iff_square_or_single_row (Constructed 2 3 [] []) (by decide) (by decide),
    by decide, by decide⟩

end AGridManager

/-! ## What the neighbour enumeration returns -/

namespace AGridManager

set_option maxRecDepth 100000 in
/-- C23 (counterexample). On the fresh 10x10 grid, actor 7 at world location
(550, 550) claims tile (5, 5) with `bAffectWalkable = false`. Afterwards
`GetTileInfoAtPositionCopy(5, 5)` is walkable, not spawnable and occupied by
actor 7, while the element that `GetNeighboringTiles(5, 5, 0, 0)` returns for
position (5, 5) is spawnable and has no occupant. -/
theorem GetNeighboringTiles_drops_stored_state :
    ∃ g, FreshGrid10x10.TakeTileSpace 7 ⟨550, 550, 0⟩ false = some (true, g) ∧
      g.GetTileInfoAtPositionCopy 5 5 = some (⟨⟨5, 5⟩, false, true, some 7⟩, true) ∧
      g.GetNeighboringTiles 5 5 0 0 = some [⟨⟨5, 5⟩, true, true, none⟩] := by
  have hloc : FreshGrid10x10.LocationToTile ⟨550, 550, 0⟩ = (5, 5, true) := by
    simp [LocationToTile, FreshGrid10x10, GenerateTileInfo, Constructed, IsGridInfoInitialized,
      GetGridWidth, GetGridHeight, IsValidTile]
    norm_num [Int.floor_eq_iff]
  have hget : FreshGrid10x10.GetTileInfoAtPositionCopy 5 5 =
      some (⟨⟨5, 5⟩, true, true, none⟩, true) := by decide
  refine ⟨{ FreshGrid10x10 with
    TilesInfo := (FreshGrid10x10.TilesInfo.set 55 ⟨⟨5, 5⟩, false, true, some 7⟩) }, ?_,
    by decide, by decide⟩
  simp only [TakeTileSpace, hloc, hget]
  rfl

end AGridManager

namespace AGridManager

/-- C23 (amended). On a generated store `GetNeighboringTiles` returns, and every
element of the result is the tile `FTileInfo(i, j)` built for a window position
`(i, j)`: both flags true and no occupant, whatever the store holds. When
`(i, j)` is in range, the tile that `GetTileInfoAtPositionCopy(i, j)` returns has
`bCanWalkOn = true`, so the element agrees with it in `bCanWalkOn`; its
`bCanSpawnOn` and occupant are the defaults, not the stored values. -/
theorem GetNeighboringTiles_elements_are_fresh (g : AGridManager)
    (Row Column NeighboringRows NeighboringColumns : Int)
    (hinit : (g.TilesInfo.length : Int) = g.NumRows * g.NumColumns) :
    ∃ Neighbors, g.GetNeighboringTiles Row Column NeighboringRows NeighboringColumns =
        some Neighbors ∧
      ∀ Tile, Tile ∈ Neighbors →
        Tile = ⟨Tile.Position, true, true, none⟩ ∧
        (Row - NeighboringRows ≤ Tile.Position.X ∧ Tile.Position.X ≤ Row + NeighboringRows ∧
          Column - NeighboringColumns ≤ Tile.Position.Y ∧
          Tile.Position.Y ≤ Column + NeighboringColumns) ∧
        ((0 ≤ Tile.Position.X ∧ Tile.Position.X < g.NumRows ∧
            0 ≤ Tile.Position.Y ∧ Tile.Position.Y < g.NumColumns) →
          ∃ Stored, g.GetTileInfoAtPositionCopy Tile.Position.X Tile.Position.Y =
              some (Stored, true) ∧ Stored.bCanWalkOn = Tile.bCanWalkOn) := by
  refine ⟨_, GetNeighboringTiles_eq g Row Column NeighboringRows NeighboringColumns, ?_⟩
  intro Tile hmem
  simp only [List.mem_map, List.mem_flatMap, List.mem_filter, mem_IntLoopRange] at hmem
  obtain ⟨i, ⟨hi0, hi1⟩, j, ⟨⟨hj0, hj1⟩, hwalk⟩, rfl⟩ := hmem
  refine ⟨rfl, ⟨hi0, hi1, hj0, hj1⟩, ?_⟩
  rintro ⟨a0, a1, b0, b1⟩
  obtain ⟨Stored, _, hget⟩ := GetTileInfoAtPositionCopy_inRange g i j hinit a0 a1 b0 b1
  refine ⟨Stored, hget, ?_⟩
  simpa [LookupCanWalkOn, hget] using hwalk

set_option maxRecDepth 100000 in
/-- Witness of C23 (amended): `GetNeighboringTiles(5, 5, 1, 1)` on the 10x10
grid whose tile (5, 5) holds `bCanSpawnOn = false` and actor 7. -/
theorem GetNeighboringTiles_elements_are_fresh_witness :
    (Claimed55Grid10x10.TilesInfo.length : Int) =
        Claimed55Grid10x10.NumRows * Claimed55Grid10x10.NumColumns ∧
    Claimed55Grid10x10.GetTileInfoAtPositionCopy 5 5 =
      some (⟨⟨5, 5⟩, false, true, some 7⟩, true) ∧
    ∃ Neighbors, Claimed55Grid10x10.GetNeighboringTiles 5 5 1 1 = some Neighbors ∧
      ∀ Tile, Tile ∈ Neighbors →
        Tile = ⟨Tile.Position, true, true, none⟩ ∧
        (5 - 1 ≤ Tile.Position.X ∧ Tile.Position.X ≤ 5 + 1 ∧
          5 - 1 ≤ Tile.Position.Y ∧ Tile.Position.Y ≤ 5 + 1) ∧
        ((0 ≤ Tile.Position.X ∧ Tile.Position.X < Claimed55Grid10x10.NumRows ∧
            0 ≤ Tile.Position.Y ∧ Tile.Position.Y < Claimed55Grid10x10.NumColumns) →
          ∃ Stored, Claimed55Grid10x10.GetTileInfoAtPositionCopy Tile.Position.X
              Tile.Position.Y = some (Stored, true) ∧
            Stored.bCanWalkOn = Tile.bCanWalkOn) :=
  ⟨by decide, by decide,
    GetNeighboringTiles_elements_are_fresh Claimed55Grid10x10 5 5 1 1 (by decide)⟩

end AGridManager

/-! ## The height of a tile location, and snapping -/

namespace AGridManager

/-- The `Z` of the computed location is the unassigned `GridLocation.Z` plus
`Offset.Z`; the origin does not enter it. -/
theorem GridLocationOf_Z (g : AGridManager) (Row Column : Int) (bCenter : Bool) (Offset : FVector)
    (UninitializedZ : ℚ) :
    (g.GridLocationOf Row Column bCenter Offset UninitializedZ).Z = UninitializedZ + Offset.Z := by
  simp only [GridLocationOf, FVector_add_Z]

set_option maxRecDepth 100000 in
/-- C24 (failing input). On the 10x10 grid whose origin is (0, 0, 50),
`TileToGridLocation(0, 0)` with zero offset returns as `Z` whatever the
unassigned member `GridLocation.Z` holds, and so do the walk and spawn variants;
when that is 0 the result is 0, not `origin.Z + 0 + Offset.Z = 50`. -/
theorem TileToGridLocation_Z_ignores_origin :
    RaisedGrid10x10.ActorLocation.Z + 0 + (⟨0, 0, 0⟩ : FVector).Z = 50 ∧
    (RaisedGrid10x10.TileToGridLocation 0 0 true ⟨0, 0, 0⟩ 0).1.Z = 0 ∧
    (∀ UninitializedZ : ℚ,
      (RaisedGrid10x10.TileToGridLocation 0 0 true ⟨0, 0, 0⟩ UninitializedZ).1.Z =
          UninitializedZ ∧
      (RaisedGrid10x10.TileToWalkGridLocation 0 0 true ⟨0, 0, 0⟩ UninitializedZ).map
          (fun r => r.1.Z) = some UninitializedZ ∧
      (RaisedGrid10x10.TileToSpawnGridLocation 0 0 true ⟨0, 0, 0⟩ UninitializedZ).map
          (fun r => r.1.Z) = some UninitializedZ) := by
  have hwalk : RaisedGrid10x10.IsValidWalkTile 0 0 = some true := by decide
  have hspawn : RaisedGrid10x10.IsValidSpawnTile 0 0 = some true := by decide
  refine ⟨by norm_num [RaisedGrid10x10], ?_, ?_⟩
  · simp [TileToGridLocation, GridLocationOf_Z]
  · intro UninitializedZ
    refine ⟨?_, ?_, ?_⟩
    · simp [TileToGridLocation, GridLocationOf_Z]
    · simp [TileToWalkGridLocation, hwalk, GridLocationOf_Z]
    · simp [TileToSpawnGridLocation, hspawn, GridLocationOf_Z]

/-- C25. In exact arithmetic, for every grid with positive dimensions and
positive tile size and every world location, `LocationToGridLocation` returns
the `X` and `Y` of the centre of the tile containing the location, with
`bValid` true exactly when that tile is in range, and applying
`LocationToGridLocation` to the result gives the same `X`, `Y` and `bValid`. -/
theorem LocationToGridLocation_idempotent (g : AGridManager) (Location : FVector) (Z1 Z2 : ℚ)
    (hr : 0 < g.NumRows) (hc : 0 < g.NumColumns) (hts : 0 < g.TileSize) :
    (g.LocationToGridLocation (g.LocationToGridLocation Location Z1).1 Z2).1.X =
      (g.LocationToGridLocation Location Z1).1.X ∧
    (g.LocationToGridLocation (g.LocationToGridLocation Location Z1).1 Z2).1.Y =
      (g.LocationToGridLocation Location Z1).1.Y ∧
    (g.LocationToGridLocation (g.LocationToGridLocation Location Z1).1 Z2).2 =
      (g.LocationToGridLocation Location Z1).2 ∧
    (g.LocationToGridLocation Location Z1).1.X =
      g.ActorLocation.X + (⌊(Location.X - g.ActorLocation.X) / g.TileSize⌋ : ℚ) * g.TileSize +
        g.TileSize / 2 ∧
    (g.LocationToGridLocation Location Z1).1.Y =
      g.ActorLocation.Y + (⌊(Location.Y - g.ActorLocation.Y) / g.TileSize⌋ : ℚ) * g.TileSize +
        g.TileSize / 2 ∧
    ((g.LocationToGridLocation Location Z1).2 = true ↔
      (0 ≤ ⌊(Location.X - g.ActorLocation.X) / g.TileSize⌋ ∧
        ⌊(Location.X - g.ActorLocation.X) / g.TileSize⌋ < g.NumRows ∧
        0 ≤ ⌊(Location.Y - g.ActorLocation.Y) / g.TileSize⌋ ∧
        ⌊(Location.Y - g.ActorLocation.Y) / g.TileSize⌋ < g.NumColumns)) := by
  have hfirst : g.LocationToGridLocation Location Z1 =
      g.TileToGridLocation ⌊(Location.X - g.ActorLocation.X) / g.TileSize⌋
        ⌊(Location.Y - g.ActorLocation.Y) / g.TileSize⌋ true ⟨0, 0, 0⟩ Z1 := by
    simp only [LocationToGridLocation, LocationToTile_eq g Location hts hr hc]
  have hx : ⌊((g.LocationToGridLocation Location Z1).1.X - g.ActorLocation.X) / g.TileSize⌋ =
      ⌊(Location.X - g.ActorLocation.X) / g.TileSize⌋ := by
    apply floor_half_tile _ _ _ hts
    rw [hfirst]
    simp only [TileToGridLocation, GridLocationOf_X, if_true]
    ring
  have hy : ⌊((g.LocationToGridLocation Location Z1).1.Y - g.ActorLocation.Y) / g.TileSize⌋ =
      ⌊(Location.Y - g.ActorLocation.Y) / g.TileSize⌋ := by
    apply floor_half_tile _ _ _ hts
    rw [hfirst]
    simp only [TileToGridLocation, GridLocationOf_Y, if_true]
    ring
  have hsecond : g.LocationToGridLocation (g.LocationToGridLocation Location Z1).1 Z2 =
      g.TileToGridLocation ⌊(Location.X - g.ActorLocation.X) / g.TileSize⌋
        ⌊(Location.Y - g.ActorLocation.Y) / g.TileSize⌋ true ⟨0, 0, 0⟩ Z2 := by
    simp only [LocationToGridLocation, LocationToTile_eq g _ hts hr hc]
    simp only [LocationToGridLocation, LocationToTile_eq g _ hts hr hc] at hx hy
    rw [hx, hy]
  rw [hsecond, hfirst]
  refine ⟨?_, ?_, rfl, ?_, ?_, IsValidTile_iff g _ _⟩
  · simp only [TileToGridLocation, GridLocationOf_X]
  · simp only [TileToGridLocation, GridLocationOf_Y]
  · simp only [TileToGridLocation, GridLocationOf_X, if_true]; ring
  · simp only [TileToGridLocation, GridLocationOf_Y, if_true]; ring

/-- Witness of C25: the location (120, 299) of the 2x3 grid of tile size 100,
inside tile (1, 2); snapping it twice gives what snapping it once gives. -/
theorem LocationToGridLocation_idempotent_witness :
    (0 < (Constructed 2 3 [] []).NumRows ∧ 0 < (Constructed 2 3 [] []).NumColumns ∧
      0 < (Constructed 2 3 [] []).TileSize) ∧
    ((Constructed 2 3 [] []).LocationToGridLocation
        ((Constructed 2 3 [] []).LocationToGridLocation ⟨120, 299, 0⟩ 0).1 0).1.X =
      ((Constructed 2 3 [] []).LocationToGridLocation ⟨120, 299, 0⟩ 0).1.X ∧
    ((Constructed 2 3 [] []).LocationToGridLocation
        ((Constructed 2 3 [] []).LocationToGridLocation ⟨120, 299, 0⟩ 0).1 0).1.Y =
      ((Constructed 2 3 [] []).LocationToGridLocation ⟨120, 299, 0⟩ 0).1.Y ∧
    ((Constructed 2 3 [] []).LocationToGridLocation
        ((Constructed 2 3 [] []).LocationToGridLocation ⟨120, 299, 0⟩ 0).1 0).2 =
      ((Constructed 2 3 [] []).LocationToGridLocation ⟨120, 299, 0⟩ 0).2 :=
  ⟨⟨by decide, by decide, by simp [Constructed]⟩,
    (LocationToGridLocation_idempotent (Constructed 2 3 [] []) ⟨120, 299, 0⟩ 0 0 (by decide)
      (by decide) (by simp [Constructed])).1,
    (LocationToGridLocation_idempotent (Constructed 2 3 [] []) ⟨120, 299, 0⟩ 0 0 (by decide)
      (by decide) (by simp [Constructed])).2.1,
    (LocationToGridLocation_idempotent (Constructed 2 3 [] []) ⟨120, 299, 0⟩ 0 0 (by decide)
      (by decide) (by simp [Constructed])).2.2.1⟩

end AGridManager

/-! ## Access by flat index -/

namespace AGridManager

theorem GetTileInfoAtIndexCopy_inRange (g : AGridManager) (Index : Int)
    (hinit : (g.TilesInfo.length : Int) = g.NumRows * g.NumColumns)
    (h0 : 0 ≤ Index) (h1 : Index < (g.TilesInfo.length : Int)) :
    ∃ Tile, g.TilesInfo[Index.toNat]? = some Tile ∧ g.GetTileInfoAtIndexCopy Index = some Tile := by
  obtain ⟨Tile, hTile, hread⟩ := TArrayRead_eq_some g.TilesInfo Index h0 h1
  refine ⟨Tile, hTile, ?_⟩
  have hI : g.IsGridInfoInitialized = true := (IsGridInfoInitialized_iff g).2 hinit
  have ha : decide (Index < 0) = false := by simpa using h0
  have hb : decide (Index > (g.TilesInfo.length : Int) - 1) = false := by
    simp only [decide_eq_false_iff_not]; omega
  simp [GetTileInfoAtIndexCopy, hI, ha, hb, hread]

theorem GetTileInfoAtIndexCopy_invalid (g : AGridManager) (Index : Int)
    (h : (g.TilesInfo.length : Int) ≠ g.NumRows * g.NumColumns ∨ Index < 0 ∨
      (g.TilesInfo.length : Int) ≤ Index) :
    g.GetTileInfoAtIndexCopy Index = some (FTileInfo.ofRowColumn (-1) (-1)) := by
  by_cases hI : g.IsGridInfoInitialized = true
  · have hrange : Index < 0 ∨ (g.TilesInfo.length : Int) ≤ Index := by
      rcases h with h | h
      · exact absurd ((IsGridInfoInitialized_iff g).1 hI) h
      · exact h
    have hc : (decide (Index < 0) || decide (Index > (g.TilesInfo.length : Int) - 1)) = true := by
      simp only [Bool.or_eq_true, decide_eq_true_eq]; omega
    simp [GetTileInfoAtIndexCopy, hI, hc]
  · simp [GetTileInfoAtIndexCopy, hI]

theorem SetTileInfoAtIndex_inRange (g : AGridManager) (Index : Int) (TileInfoIn : FTileInfo)
    (hinit : (g.TilesInfo.length : Int) = g.NumRows * g.NumColumns)
    (h0 : 0 ≤ Index) (h1 : Index < (g.TilesInfo.length : Int)) :
    ∃ Tile, g.TilesInfo[Index.toNat]? = some Tile ∧
      g.SetTileInfoAtIndex Index TileInfoIn =
        some (true, { g with
          TilesInfo := (g.TilesInfo.set Index.toNat (Tile.Assign TileInfoIn)) }) := by
  obtain ⟨Tile, hTile, hread⟩ := TArrayRead_eq_some g.TilesInfo Index h0 h1
  refine ⟨Tile, hTile, ?_⟩
  have hI : g.IsGridInfoInitialized = true := (IsGridInfoInitialized_iff g).2 hinit
  have ha : decide (Index < 0) = false := by simpa using h0
  have hb : decide (Index > (g.TilesInfo.length : Int) - 1) = false := by
    simp only [decide_eq_false_iff_not]; omega
  simp [SetTileInfoAtIndex, hI, ha, hb, hread]

theorem SetTileInfoAtIndex_invalid (g : AGridManager) (Index : Int) (TileInfoIn : FTileInfo)
    (h : (g.TilesInfo.length : Int) ≠ g.NumRows * g.NumColumns ∨ Index < 0 ∨
      (g.TilesInfo.length : Int) ≤ Index) :
    g.SetTileInfoAtIndex Index TileInfoIn = some (false, g) := by
  by_cases hI : g.IsGridInfoInitialized = true
  · have hrange : Index < 0 ∨ (g.TilesInfo.length : Int) ≤ Index := by
      rcases h with h | h
      · exact absurd ((IsGridInfoInitialized_iff g).1 hI) h
      · exact h
    have hc : (decide (Index < 0) || decide (Index > (g.TilesInfo.length : Int) - 1)) = true := by
      simp only [Bool.or_eq_true, decide_eq_true_eq]; omega
    simp [SetTileInfoAtIndex, hI, hc]
  · simp [SetTileInfoAtIndex, hI]

/-- C26. On a generated store of any shape, for every index with
`0 <= Index < NumRows * NumColumns`, `SetTileInfoAtIndex` returns true, after
which `GetTileInfoAtIndexCopy(Index)` has the flags and the occupant of
`TileInfoIn` and the position it had, and every other index reads as before;
for an in-range `(Row, Column)`, `GetTileInfoAtIndexCopy(Row * NumColumns +
Column)` is the tile `GetTileInfoAtPositionCopy(Row, Column)` returns. For a
negative index, an index of at least `NumRows * NumColumns`, or a store that is
not generated, `SetTileInfoAtIndex` returns false leaving the state as it was
and `GetTileInfoAtIndexCopy` returns the sentinel tile with position (-1, -1). -/
theorem IndexAccess_spec (g : AGridManager) (Index : Int) (TileInfoIn : FTileInfo) :
    (((g.TilesInfo.length : Int) = g.NumRows * g.NumColumns ∧ 0 ≤ Index ∧
        Index < g.NumRows * g.NumColumns) →
      ∃ Old g', g.GetTileInfoAtIndexCopy Index = some Old ∧
        g.SetTileInfoAtIndex Index TileInfoIn = some (true, g') ∧
        g'.GetTileInfoAtIndexCopy Index =
          some ⟨Old.Position, TileInfoIn.bCanSpawnOn, TileInfoIn.bCanWalkOn,
            TileInfoIn.ActorOnTile⟩ ∧
        (∀ Other : Int, Other ≠ Index →
          g'.GetTileInfoAtIndexCopy Other = g.GetTileInfoAtIndexCopy Other)) ∧
    ((g.TilesInfo.length : Int) = g.NumRows * g.NumColumns →
      ∀ Row Column : Int, 0 ≤ Row → Row < g.NumRows → 0 ≤ Column → Column < g.NumColumns →
        ∃ Tile, g.GetTileInfoAtIndexCopy (Row * g.NumColumns + Column) = some Tile ∧
          g.GetTileInfoAtPositionCopy Row Column = some (Tile, true)) ∧
    (((g.TilesInfo.length : Int) ≠ g.NumRows * g.NumColumns ∨ Index < 0 ∨
        g.NumRows * g.NumColumns ≤ Index) →
      g.SetTileInfoAtIndex Index TileInfoIn = some (false, g) ∧
      g.GetTileInfoAtIndexCopy Index = some ⟨⟨-1, -1⟩, true, true, none⟩) := by
  refine ⟨?_, ?_, ?_⟩
  · rintro ⟨hinit, h0, h1⟩
    have h1' : Index < (g.TilesInfo.length : Int) := by rw [hinit]; exact h1
    obtain ⟨Old, hOld, hget⟩ := GetTileInfoAtIndexCopy_inRange g Index hinit h0 h1'
    obtain ⟨Old2, hOld2, hset⟩ := SetTileInfoAtIndex_inRange g Index TileInfoIn hinit h0 h1'
    rw [hOld] at hOld2
    cases hOld2
    have hlen : ((g.TilesInfo.set Index.toNat (Old.Assign TileInfoIn)).length : Int) =
        g.NumRows * g.NumColumns := by
      rw [List.length_set]; exact hinit
    have hlt : Index.toNat < g.TilesInfo.length := by omega
    refine ⟨Old, { g with
      TilesInfo := (g.TilesInfo.set Index.toNat (Old.Assign TileInfoIn)) }, hget, hset, ?_, ?_⟩
    · obtain ⟨New, hNew, hgetNew⟩ := GetTileInfoAtIndexCopy_inRange
        { g with TilesInfo := (g.TilesInfo.set Index.toNat (Old.Assign TileInfoIn)) } Index hlen h0
        (by rw [hlen, ← hinit]; exact h1')
      rw [hgetNew]
      have hNew2 : (g.TilesInfo.set Index.toNat (Old.Assign TileInfoIn))[Index.toNat]? =
          some New := hNew
      rw [List.getElem?_set_self hlt] at hNew2
      cases hNew2
      rfl
    · intro Other hne
      by_cases hin : 0 ≤ Other ∧ Other < (g.TilesInfo.length : Int)
      · obtain ⟨T, hT, hgetT⟩ := GetTileInfoAtIndexCopy_inRange g Other hinit hin.1 hin.2
        obtain ⟨T', hT', hgetT'⟩ := GetTileInfoAtIndexCopy_inRange
          { g with TilesInfo := (g.TilesInfo.set Index.toNat (Old.Assign TileInfoIn)) } Other hlen
          hin.1 (by rw [hlen, ← hinit]; exact hin.2)
        rw [hgetT, hgetT']
        have hT2 : (g.TilesInfo.set Index.toNat (Old.Assign TileInfoIn))[Other.toNat]? =
            some T' := hT'
        rw [List.getElem?_set_ne (by omega), hT] at hT2
        rw [hT2]
      · have hout : Other < 0 ∨ (g.TilesInfo.length : Int) ≤ Other := by omega
        rw [GetTileInfoAtIndexCopy_invalid g Other (Or.inr hout)]
        apply GetTileInfoAtIndexCopy_invalid
        right
        simp only [List.length_set]
        exact hout
  · intro hinit Row Column hr0 hr1 hc0 hc1
    obtain ⟨hb0, hb1⟩ := flatIndex_bounds hr0 hr1 hc0 hc1
    obtain ⟨Tile, hTile, hget⟩ := GetTileInfoAtIndexCopy_inRange g (Row * g.NumColumns + Column)
      hinit hb0 (by rw [hinit]; exact hb1)
    obtain ⟨Tile2, hTile2, hget2⟩ :=
      GetTileInfoAtPositionCopy_inRange g Row Column hinit hr0 hr1 hc0 hc1
    rw [hTile] at hTile2
    cases hTile2
    exact ⟨Tile, hget, hget2⟩
  · intro h
    have h' : (g.TilesInfo.length : Int) ≠ g.NumRows * g.NumColumns ∨ Index < 0 ∨
        (g.TilesInfo.length : Int) ≤ Index := by
      by_cases hinit : (g.TilesInfo.length : Int) = g.NumRows * g.NumColumns
      · rcases h with h | h | h
        · exact absurd hinit h
        · exact Or.inr (Or.inl h)
        · exact Or.inr (Or.inr (by rw [hinit]; exact h))
      · exact Or.inl hinit
    exact ⟨SetTileInfoAtIndex_invalid g Index TileInfoIn h', GetTileInfoAtIndexCopy_invalid g Index h'⟩

/-- Witness of C26: index 3, the cell (1, 0), of the generated 2x3 grid. -/
theorem IndexAccess_spec_witness :
    ((FreshGrid2x3.TilesInfo.length : Int) = FreshGrid2x3.NumRows * FreshGrid2x3.NumColumns ∧
      (0 : Int) ≤ 3 ∧ 3 < FreshGrid2x3.NumRows * FreshGrid2x3.NumColumns) ∧
    ∃ Old g', FreshGrid2x3.GetTileInfoAtIndexCopy 3 = some Old ∧
      FreshGrid2x3.SetTileInfoAtIndex 3 ⟨⟨-1, -1⟩, false, false, some 7⟩ = some (true, g') ∧
      g'.GetTileInfoAtIndexCopy 3 = some ⟨Old.Position, false, false, some 7⟩ ∧
      (∀ Other : Int, Other ≠ 3 →
        g'.GetTileInfoAtIndexCopy Other = FreshGrid2x3.GetTileInfoAtIndexCopy Other) :=
  ⟨by decide,
    (IndexAccess_spec FreshGrid2x3 3 ⟨⟨-1, -1⟩, false, false, some 7⟩).1 (by decide)⟩

end AGridManager
